import Mathlib

/-!
# jobs-search: identity and credential core

A shallow embedding of `internal/util.go`, `internal/user.go`,
`internal/provider/service.go`, `internal/repository/mysql/user.go`,
`internal/http/user.go` and `internal/http/auth.go`.

* Go `error` values are the inductive `GoError`; `nil` is `none`.
* A Go function returning `(T, error)` returns a pair `T × Option GoError`.
* Collaborators behind interfaces (hasher, comparator, timer, store) are records of
  state transformers over an arbitrary collaborator state `σ`.
* Every call through one of those interfaces made by `internal/user.go` and by
  `JWTUserPresenter.Present` is recorded, in order, in `World.calls`, so that "is not
  invoked" is a statement about that list.
* `context.Context` arguments are dropped: cancellation is not modelled.
-/

namespace JobsSearch

/-! ## Errors -/

/-- Error values created once with `errors.New` and compared by identity. The three
sentinels of package `internal`, and `foreign` for those of other packages
(`sql.ErrNoRows`, `bcrypt.ErrMismatchedHashAndPassword`, driver errors, ...). -/
inductive Sentinel where
  | ErrUserNotFound
  | ErrUnauthenticated
  | ErrHashMismatched
  | foreign (name : String)
  deriving DecidableEq, Repr

/-- Go error values as the program builds them. -/
inductive GoError where
  /-- a value made by `errors.New` -/
  | sentinel (s : Sentinel)
  /-- an `internal.ValidationError{field, tag}` value -/
  | validationError (field tag : String)
  /-- a `validator.ValidationErrors` value of the go-playground library -/
  | validationErrors (tag : String)
  /-- the result of `fmt.Errorf(msg + ": %w", inner)` -/
  | wrap (msg : String) (inner : GoError)
  /-- the result of `fmt.Errorf("%w: %w", first, second)` -/
  | wrap2 (first second : GoError)
  deriving DecidableEq, Repr

/-- The variable `ErrUserNotFound` of `internal/user.go`. -/
def ErrUserNotFound : GoError := .sentinel .ErrUserNotFound

/-- The variable `ErrUnauthenticated` of `internal/user.go`. -/
def ErrUnauthenticated : GoError := .sentinel .ErrUnauthenticated

/-- The variable `ErrHashMismatched` of `internal/util.go`. -/
def ErrHashMismatched : GoError := .sentinel .ErrHashMismatched

/-- The sentinel `sql.ErrNoRows` of `database/sql`. -/
def sqlErrNoRows : Sentinel := .foreign "sql: no rows in result set"

namespace errors

/-- Go `errors.Is(err, target)` for a sentinel target: the error tree is walked depth
first through every `%w` and each node is compared with the target by identity. -/
def Is : GoError → Sentinel → Bool
  | .sentinel s, t => decide (s = t)
  | .validationError _ _, _ => false
  | .validationErrors _, _ => false
  | .wrap _ inner, t => Is inner t
  | .wrap2 first second, t => Is first t || Is second t

/-- Go `errors.As(err, &ValidationError{})`: the first `ValidationError` of the error
tree, depth first, as its `(Field(), Tag())` pair. -/
def AsValidationError : GoError → Option (String × String)
  | .sentinel _ => none
  | .validationError field tag => some (field, tag)
  | .validationErrors _ => none
  | .wrap _ inner => AsValidationError inner
  | .wrap2 first second =>
    match AsValidationError first with
    | some ve => some ve
    | none => AsValidationError second

/-- Go `errors.As(err, &validator.ValidationErrors{})`, as the success flag. -/
def AsValidationErrors : GoError → Bool
  | .sentinel _ => false
  | .validationError _ _ => false
  | .validationErrors _ => true
  | .wrap _ inner => AsValidationErrors inner
  | .wrap2 first second => AsValidationErrors first || AsValidationErrors second

end errors

/-- `NewValidationError` of `internal/util.go`. -/
def NewValidationError (field tag : String) : GoError := .validationError field tag

/-! ## Data model -/

/-- A `time.Time` instant, as nanoseconds since the Unix epoch. -/
structure Time where
  unixNano : Int
  deriving DecidableEq, Repr

/-- The zero `time.Time{}`: January 1, year 1, 00:00:00 UTC. -/
def Time.zero : Time := ⟨-62135596800 * 1000000000⟩

/-- `User` of `internal/user.go`. `ID` is an `int64`; no arithmetic is done on it here. -/
structure User where
  ID : Int
  Username : String
  Password : String
  CreatedAt : Time
  UpdatedAt : Time
  deriving DecidableEq, Repr

/-- The zero value `User{}`. -/
def User.zero : User := ⟨0, "", "", Time.zero, Time.zero⟩

/-- `UserAuthenticationRequest` of `internal/user.go`. -/
structure UserAuthenticationRequest where
  Username : String
  Password : String
  deriving DecidableEq, Repr

/-- `UserRegistrationRequest` of `internal/user.go`, which embeds the authentication
request. -/
structure UserRegistrationRequest extends UserAuthenticationRequest where
  PasswordConfirmation : String
  deriving DecidableEq, Repr

/-! ## Collaborators and the call record -/

/-- One call through an interface of `internal`, with its arguments. -/
inductive Call where
  | Hash (plain : String)
  | Compare (hashed plain : String)
  | Now
  | GetUserByUsername (username : String)
  | StoreUser (user : User)
  deriving DecidableEq, Repr

/-- The state of the collaborators together with the calls made so far, oldest first. -/
structure World (σ : Type) where
  state : σ
  calls : List Call

/-- The world after a call `c` that left the collaborators in state `s`. -/
def World.record {σ : Type} (w : World σ) (c : Call) (s : σ) : World σ :=
  ⟨s, w.calls ++ [c]⟩

/-- Interface `Hasher`. -/
structure Hasher (σ : Type) where
  Hash : String → σ → (String × Option GoError) × σ

/-- Interface `Comparator`. -/
structure Comparator (σ : Type) where
  Compare : String → String → σ → Option GoError × σ

/-- Interface `Timer`. -/
structure Timer (σ : Type) where
  Now : σ → Time × σ

/-- Interface `UserGetterByUsername`. -/
structure UserGetterByUsername (σ : Type) where
  GetUserByUsername : String → σ → (User × Option GoError) × σ

/-- Interface `UserStorer`. The `*User` argument is passed in and the value it points to
after the call is returned next to the error. -/
structure UserStorer (σ : Type) where
  StoreUser : User → σ → (User × Option GoError) × σ

/-- Interface `Validator[T]`: `Validate(ctx, val) error`. -/
abbrev Validator (σ T : Type) : Type := T → World σ → Option GoError × World σ

/-! ## The validation library -/

/-- Modelled from the spec: the rule tags of the go-playground validator library that
`internal/user.go` passes to `VarCtx` (the library is a dependency and not part of the
repository). `required` is "non-empty", `min=n` is "length ≥ n", `max=n` is "length ≤ n",
`alphanum` is "alphanumeric only". -/
inductive Tag where
  | required
  | min (n : Nat)
  | max (n : Nat)
  | alphanum
  deriving DecidableEq, Repr

/-- The tag as written in the source: `"required"`, `"min=3"`, ... -/
def Tag.text : Tag → String
  | .required => "required"
  | .min n => "min=" ++ toString n
  | .max n => "max=" ++ toString n
  | .alphanum => "alphanum"

/-- Modelled from the spec: whether a string field satisfies a tag. Lengths are counted
in characters; alphanumeric means one or more of the ASCII letters and digits. -/
def Tag.holds : Tag → String → Bool
  | .required, field => decide (field ≠ "")
  | .min n, field => decide (n ≤ field.length)
  | .max n, field => decide (field.length ≤ n)
  | .alphanum, field => decide (field ≠ "") && field.data.all Char.isAlphanum

/-- Modelled from the spec: `(*validator.Validate).VarCtx(ctx, field, tag)` on a string
field. It returns `nil` when the tag holds and a `validator.ValidationErrors` value when
it does not. -/
def VarCtx (field : String) (tag : Tag) : Option GoError :=
  if tag.holds field then none else some (.validationErrors tag.text)

/-- Modelled from the spec: `(*validator.Validate).VarWithValueCtx(ctx, field, other,
"eqfield")` on two string fields: `nil` when they are equal. -/
def VarWithValueCtx (field other : String) : Option GoError :=
  if field = other then none else some (.validationErrors "eqfield")

/-! ## `internal/util.go` -/

/-- The `bcrypt` package of `golang.org/x/crypto`, as far as `bcryptHasher` uses it.
Byte slices are strings. -/
structure Bcrypt (σ : Type) where
  GenerateFromPassword : String → Int → σ → (String × Option GoError) × σ
  CompareHashAndPassword : String → String → σ → Option GoError × σ

/-- The sentinel `bcrypt.ErrMismatchedHashAndPassword`. -/
def bcryptErrMismatchedHashAndPassword : Sentinel :=
  .foreign "crypto/bcrypt: hashedPassword is not the hash of the given password"

/-- `bcryptHasher` of `internal/util.go`. -/
structure bcryptHasher (σ : Type) where
  bcrypt : Bcrypt σ
  cost : Int

/-- `bcryptHasher.Hash`. -/
def bcryptHasher.Hash {σ : Type} (h : bcryptHasher σ) (plain : String) (s : σ) :
    (String × Option GoError) × σ :=
  match h.bcrypt.GenerateFromPassword plain h.cost s with
  | ((_, some err), s1) => (("", some (.wrap "generating bcrypt hash from password" err)), s1)
  | ((hashed, none), s1) => ((hashed, none), s1)

/-- `bcryptHasher.Compare`. -/
def bcryptHasher.Compare {σ : Type} (h : bcryptHasher σ) (hashed plain : String) (s : σ) :
    Option GoError × σ :=
  match h.bcrypt.CompareHashAndPassword hashed plain s with
  | (some err, s1) =>
    let err1 := if errors.Is err bcryptErrMismatchedHashAndPassword then ErrHashMismatched
      else err
    (some (.wrap "comparing bcrypt hash with plain" err1), s1)
  | (none, s1) => (none, s1)

/-- `NewBcryptHasher`; the `bcrypt` package is made explicit. -/
def NewBcryptHasher {σ : Type} (bcrypt : Bcrypt σ) (cost : Int) : bcryptHasher σ :=
  ⟨bcrypt, cost⟩

/-- A `bcryptHasher` used as a `Hasher`. -/
def bcryptHasher.toHasher {σ : Type} (h : bcryptHasher σ) : Hasher σ := ⟨h.Hash⟩

/-- A `bcryptHasher` used as a `Comparator`. -/
def bcryptHasher.toComparator {σ : Type} (h : bcryptHasher σ) : Comparator σ := ⟨h.Compare⟩

/-- `NewTimer`: the timer that reads the host clock `time.Now`. -/
def NewTimer {σ : Type} (timeNow : σ → Time × σ) : Timer σ := ⟨timeNow⟩

/-- `validationAggregator[T]` of `internal/util.go`. -/
structure validationAggregator (σ T : Type) where
  validators : List (Validator σ T)

/-- The `for index, validator := range v.validators` loop of
`validationAggregator.Validate`, from position `index` on. -/
def validationAggregator.loop {σ T : Type} :
    List (Validator σ T) → Nat → T → World σ → Option GoError × World σ
  | [], _, _, w => (none, w)
  | validator :: rest, index, val, w =>
    match validator val w with
    | (some err, w1) =>
      (some (.wrap ("calling validator number " ++ toString index) err), w1)
    | (none, w1) => validationAggregator.loop rest (index + 1) val w1

/-- `validationAggregator.Validate`. -/
def validationAggregator.Validate {σ T : Type} (v : validationAggregator σ T) :
    Validator σ T :=
  fun val w => validationAggregator.loop v.validators 0 val w

/-- `NewValidationAggregator(v1, v2, vn...)`. -/
def NewValidationAggregator {σ T : Type} (v1 v2 : Validator σ T)
    (vn : List (Validator σ T)) : validationAggregator σ T :=
  ⟨[v1, v2] ++ vn⟩

/-! ## `internal/user.go` -/

/-- `userRegistrator` of `internal/user.go`. -/
structure userRegistrator (σ : Type) where
  validator : Validator σ UserRegistrationRequest
  timer : Timer σ
  hasher : Hasher σ
  userStorer : UserStorer σ

/-- `userRegistrator.RegisterUser`. -/
def userRegistrator.RegisterUser {σ : Type} (ur : userRegistrator σ)
    (req : UserRegistrationRequest) (w : World σ) : (User × Option GoError) × World σ :=
  match ur.validator req w with
  | (some err, w1) =>
    ((User.zero, some (.wrap "validating user registration request" err)), w1)
  | (none, w1) =>
    match ur.hasher.Hash req.Password w1.state with
    | ((_, some err), s2) =>
      ((User.zero, some (.wrap "hashing plain user password" err)),
        w1.record (.Hash req.Password) s2)
    | ((hashed, none), s2) =>
      let w2 := w1.record (.Hash req.Password) s2
      let (now, s3) := ur.timer.Now w2.state
      let w3 := w2.record .Now s3
      let user : User :=
        { ID := 0, Username := req.Username, Password := hashed,
          CreatedAt := now, UpdatedAt := now }
      match ur.userStorer.StoreUser user w3.state with
      | ((_, some err), s4) =>
        ((User.zero, some (.wrap "storing user" err)), w3.record (.StoreUser user) s4)
      | ((stored, none), s4) => ((stored, none), w3.record (.StoreUser user) s4)

/-- `NewUserRegistrator`. -/
def NewUserRegistrator {σ : Type} (validator : Validator σ UserRegistrationRequest)
    (timer : Timer σ) (hasher : Hasher σ) (userStorer : UserStorer σ) :
    userRegistrator σ :=
  ⟨validator, timer, hasher, userStorer⟩

/-- `userRegistrationRequestValidator.EvaluateErrorAs`. -/
def userRegistrationRequestValidator.EvaluateErrorAs (err target : GoError) : GoError :=
  if errors.AsValidationErrors err then target else err

/-- `userRegistrationRequestValidator.Validate`; it calls no collaborator. -/
def userRegistrationRequestValidator.Validate (req : UserRegistrationRequest) :
    Option GoError :=
  match VarCtx req.Username .required with
  | some err => some (userRegistrationRequestValidator.EvaluateErrorAs err
      (NewValidationError "username" "required"))
  | none =>
  match VarCtx req.Username (.min 3) with
  | some err => some (userRegistrationRequestValidator.EvaluateErrorAs err
      (NewValidationError "username" "min=3"))
  | none =>
  match VarCtx req.Username (.max 15) with
  | some err => some (userRegistrationRequestValidator.EvaluateErrorAs err
      (NewValidationError "username" "max=15"))
  | none =>
  match VarCtx req.Username .alphanum with
  | some err => some (userRegistrationRequestValidator.EvaluateErrorAs err
      (NewValidationError "username" "alphanum"))
  | none =>
  match VarCtx req.Password .required with
  | some err => some (userRegistrationRequestValidator.EvaluateErrorAs err
      (NewValidationError "password" "required"))
  | none =>
  match VarCtx req.Password (.min 6) with
  | some err => some (userRegistrationRequestValidator.EvaluateErrorAs err
      (NewValidationError "password" "min=6"))
  | none =>
  match VarWithValueCtx req.Password req.PasswordConfirmation with
  | some err => some (userRegistrationRequestValidator.EvaluateErrorAs err
      (NewValidationError "password" "eqfield=password_confirmation"))
  | none => none

/-- `NewUserRegistrationRequestValidator`, as a `Validator`. -/
def NewUserRegistrationRequestValidator {σ : Type} : Validator σ UserRegistrationRequest :=
  fun req w => (userRegistrationRequestValidator.Validate req, w)

/-- `usernameUniquenessValidator` of `internal/user.go`. -/
structure usernameUniquenessValidator (σ : Type) where
  userGetterByUsername : UserGetterByUsername σ

/-- `usernameUniquenessValidator.Validate`. -/
def usernameUniquenessValidator.Validate {σ : Type} (v : usernameUniquenessValidator σ) :
    Validator σ UserRegistrationRequest :=
  fun req w =>
    match v.userGetterByUsername.GetUserByUsername req.Username w.state with
    | ((user, err), s1) =>
      let w1 := w.record (.GetUserByUsername req.Username) s1
      match err with
      | some e =>
        if !errors.Is e .ErrUserNotFound then
          (some (.wrap "getting user by username" e), w1)
        else if user.ID > 0 then (some (NewValidationError "username" "unique"), w1)
        else (none, w1)
      | none =>
        if user.ID > 0 then (some (NewValidationError "username" "unique"), w1)
        else (none, w1)

/-- `NewUsernameUniquenessValidator`. -/
def NewUsernameUniquenessValidator {σ : Type} (userGetterByUsername : UserGetterByUsername σ) :
    usernameUniquenessValidator σ :=
  ⟨userGetterByUsername⟩

/-- `userAuthenticator` of `internal/user.go`. -/
structure userAuthenticator (σ : Type) where
  validator : Validator σ UserAuthenticationRequest
  userGetterByUsername : UserGetterByUsername σ
  comparator : Comparator σ

/-- `userAuthenticator.AuthenticateUser`. -/
def userAuthenticator.AuthenticateUser {σ : Type} (ua : userAuthenticator σ)
    (req : UserAuthenticationRequest) (w : World σ) : (User × Option GoError) × World σ :=
  match ua.validator req w with
  | (some err, w1) =>
    ((User.zero, some (.wrap "validating user authentication request" err)), w1)
  | (none, w1) =>
    match ua.userGetterByUsername.GetUserByUsername req.Username w1.state with
    | ((_, some err), s2) =>
      let err1 := GoError.wrap "getting user by username" err
      let err2 := if errors.Is err1 .ErrUserNotFound then ErrUnauthenticated else err1
      ((User.zero, some err2), w1.record (.GetUserByUsername req.Username) s2)
    | ((user, none), s2) =>
      let w2 := w1.record (.GetUserByUsername req.Username) s2
      match ua.comparator.Compare user.Password req.Password w2.state with
      | (some err, s3) =>
        let err1 := GoError.wrap "comparing hashed with plain user password" err
        let err2 := if errors.Is err1 .ErrHashMismatched then ErrUnauthenticated else err1
        ((User.zero, some err2), w2.record (.Compare user.Password req.Password) s3)
      | (none, s3) => ((user, none), w2.record (.Compare user.Password req.Password) s3)

/-- `NewUserAuthenticator`. -/
def NewUserAuthenticator {σ : Type} (validator : Validator σ UserAuthenticationRequest)
    (userGetterByUsername : UserGetterByUsername σ) (comparator : Comparator σ) :
    userAuthenticator σ :=
  ⟨validator, userGetterByUsername, comparator⟩

/-- `userAuthenticationRequestValidator.EvaluateErrorAs`. -/
def userAuthenticationRequestValidator.EvaluateErrorAs (err target : GoError) : GoError :=
  if errors.AsValidationErrors err then target else err

/-- `userAuthenticationRequestValidator.Validate`; it calls no collaborator. -/
def userAuthenticationRequestValidator.Validate (req : UserAuthenticationRequest) :
    Option GoError :=
  match VarCtx req.Username .required with
  | some err => some (userAuthenticationRequestValidator.EvaluateErrorAs err
      (NewValidationError "username" "required"))
  | none =>
  match VarCtx req.Password .required with
  | some err => some (userAuthenticationRequestValidator.EvaluateErrorAs err
      (NewValidationError "password" "required"))
  | none => none

/-- `NewUserAuthenticationRequestValidator`, as a `Validator`. -/
def NewUserAuthenticationRequestValidator {σ : Type} :
    Validator σ UserAuthenticationRequest :=
  fun req w => (userAuthenticationRequestValidator.Validate req, w)

/-! ## `internal/repository/mysql/user.go` -/

/-- The SQL statements `StoreUser` chooses between. -/
inductive SqlQuery where
  | insertUser
  | updateUser
  deriving DecidableEq, Repr

/-- A statement argument. -/
inductive SqlArg where
  | text (s : String)
  | time (t : Time)
  | integer (n : Int)
  deriving DecidableEq, Repr

/-- The `*sqlx.DB` handle, as far as `userRepository` uses it. `QueryRowScan username`
is `QueryRowContext(ctx, query, username).Scan(...)` of `GetUserByUsername`: it gives the
scanned row and the error of `Scan`. `StmtClose` and `Rollback` have their results
ignored by the source. -/
structure DB (σ : Type) where
  QueryRowScan : String → σ → (User × Option GoError) × σ
  BeginTx : σ → Option GoError × σ
  Rollback : σ → σ
  PrepareContext : SqlQuery → σ → Option GoError × σ
  StmtClose : σ → σ
  ExecContext : SqlQuery → List SqlArg → σ → Option GoError × σ
  LastInsertId : σ → (Int × Option GoError) × σ
  Commit : σ → Option GoError × σ

/-- `userRepository` of `internal/repository/mysql/user.go`. -/
structure userRepository (σ : Type) where
  db : DB σ

/-- `userRepository.GetUserByUsername`. -/
def userRepository.GetUserByUsername {σ : Type} (r : userRepository σ) (username : String)
    (s : σ) : (User × Option GoError) × σ :=
  match r.db.QueryRowScan username s with
  | ((_, some err), s1) =>
    let err1 := if errors.Is err sqlErrNoRows then GoError.wrap2 ErrUserNotFound err else err
    ((User.zero, some (.wrap "querying mysql users table" err1)), s1)
  | ((user, none), s1) => ((user, none), s1)

/-- The end of `userRepository.StoreUser`, from `tx.Commit()` on; the deferred
`stmt.Close()` and the deferred rollback-on-error run at the return. -/
def userRepository.commit {σ : Type} (r : userRepository σ) (user : User) (s : σ) :
    (User × Option GoError) × σ :=
  match r.db.Commit s with
  | (some err, s1) =>
    ((user, some (.wrap "committing mysql db transaction" err)),
      r.db.Rollback (r.db.StmtClose s1))
  | (none, s1) => ((user, none), r.db.StmtClose s1)

/-- `userRepository.StoreUser`. -/
def userRepository.StoreUser {σ : Type} (r : userRepository σ) (user : User) (s : σ) :
    (User × Option GoError) × σ :=
  match r.db.BeginTx s with
  | (some err, s1) => ((user, some (.wrap "initializing mysql db transaction" err)), s1)
  | (none, s1) =>
    let query := if user.ID > 0 then SqlQuery.updateUser else SqlQuery.insertUser
    let args :=
      if user.ID > 0 then
        [SqlArg.text user.Username, .text user.Password, .time user.UpdatedAt,
          .integer user.ID]
      else
        [SqlArg.text user.Username, .text user.Password, .time user.CreatedAt,
          .time user.UpdatedAt]
    match r.db.PrepareContext query s1 with
    | (some err, s2) => ((user, some (.wrap "preparing mysql query" err)), r.db.Rollback s2)
    | (none, s2) =>
      match r.db.ExecContext query args s2 with
      | (some err, s3) =>
        ((user, some (.wrap "executing mysql query" err)), r.db.Rollback (r.db.StmtClose s3))
      | (none, s3) =>
        if user.ID ≤ 0 then
          match r.db.LastInsertId s3 with
          | ((_, some err), s4) =>
            ((user, some (.wrap "getting last inserted id" err)),
              r.db.Rollback (r.db.StmtClose s4))
          | ((lastInsertedID, none), s4) => r.commit { user with ID := lastInsertedID } s4
        else r.commit user s3

/-- `NewUserRepository`. -/
def NewUserRepository {σ : Type} (db : DB σ) : userRepository σ := ⟨db⟩

/-- A `userRepository` used as a `UserGetterByUsername`. -/
def userRepository.toGetter {σ : Type} (r : userRepository σ) : UserGetterByUsername σ :=
  ⟨r.GetUserByUsername⟩

/-- A `userRepository` used as a `UserStorer`. -/
def userRepository.toStorer {σ : Type} (r : userRepository σ) : UserStorer σ :=
  ⟨r.StoreUser⟩

/-! ## `internal/provider/service.go` -/

/-- The fields of `internal.Module` that `Service.Provide` fills for the identity core. -/
structure Module (σ : Type) where
  Timer : JobsSearch.Timer σ
  UserRegistrator : userRegistrator σ
  UserAuthenticator : userAuthenticator σ

/-- The validator `Service.Provide` gives to the registrator: the aggregator of the
request validator followed by the uniqueness validator. -/
def Service.registrationValidator {σ : Type} (userRepository : UserGetterByUsername σ) :
    Validator σ UserRegistrationRequest :=
  (NewValidationAggregator NewUserRegistrationRequestValidator
    (NewUsernameUniquenessValidator userRepository).Validate []).Validate

/-- The wiring of `Service.Provide` once the timer, the hasher and the repository are
built; in the source `hasher` and `comparator` are one `bcryptHasher` and `getter` and
`storer` are one `userRepository`. -/
def Service.wire {σ : Type} (timer : Timer σ) (hasher : Hasher σ) (comparator : Comparator σ)
    (getter : UserGetterByUsername σ) (storer : UserStorer σ) : Module σ :=
  { Timer := timer
    UserRegistrator :=
      NewUserRegistrator (Service.registrationValidator getter) timer hasher storer
    UserAuthenticator :=
      NewUserAuthenticator NewUserAuthenticationRequestValidator getter comparator }

/-- `Service.Provide`, over the host clock, the `bcrypt` package and the database handle
of the module; `bcrypt.DefaultCost` is 10. -/
def Service.Provide {σ : Type} (timeNow : σ → Time × σ) (bcrypt : Bcrypt σ) (db : DB σ) :
    Module σ :=
  let timer := NewTimer timeNow
  let bcryptHasher := NewBcryptHasher bcrypt 10
  let userRepository := NewUserRepository db
  Service.wire timer bcryptHasher.toHasher bcryptHasher.toComparator
    userRepository.toGetter userRepository.toStorer

/-! ## A concrete set of collaborators

An in-memory database, a toy `bcrypt` and a counting clock, used to run the program on
concrete inputs. -/

namespace Demo

/-- The rows of the `users` table and the reading of the clock. -/
structure State where
  rows : List User
  clock : Int
  deriving DecidableEq, Repr

/-- An in-memory `users` table with an auto-increment key starting at 1. -/
def db : DB State where
  QueryRowScan := fun username s =>
    match s.rows.find? (fun u => decide (u.Username = username)) with
    | some u => ((u, none), s)
    | none => ((User.zero, some (.sentinel sqlErrNoRows)), s)
  BeginTx := fun s => (none, s)
  Rollback := fun s => s
  PrepareContext := fun _ s => (none, s)
  StmtClose := fun s => s
  ExecContext := fun query args s =>
    match query, args with
    | .insertUser, [.text username, .text password, .time createdAt, .time updatedAt] =>
      (none, { s with rows := s.rows ++
        [⟨(s.rows.length : Int) + 1, username, password, createdAt, updatedAt⟩] })
    | .updateUser, [.text username, .text password, .time updatedAt, .integer id] =>
      (none, { s with rows := s.rows.map fun u =>
        if u.ID = id then ⟨id, username, password, u.CreatedAt, updatedAt⟩ else u })
    | _, _ => (some (.sentinel (.foreign "sql: wrong arguments")), s)
  LastInsertId := fun s => (((s.rows.length : Int), none), s)
  Commit := fun s => (none, s)

/-- A toy `bcrypt`: the hash of `p` is `"$2a$10$" ++ p`. -/
def bcrypt : Bcrypt State where
  GenerateFromPassword := fun plain _ s => (("$2a$10$" ++ plain, none), s)
  CompareHashAndPassword := fun hashed plain s =>
    if hashed = "$2a$10$" ++ plain then (none, s)
    else (some (.sentinel bcryptErrMismatchedHashAndPassword), s)

/-- A clock that advances by one nanosecond at each reading. -/
def timeNow (s : State) : Time × State := (⟨s.clock⟩, { s with clock := s.clock + 1 })

/-- The module `Service.Provide` builds over the collaborators above. -/
def module : Module State := Service.Provide timeNow bcrypt db

/-- An empty table, the clock at 1000, no call made yet. -/
def emptyWorld : World State := ⟨⟨[], 1000⟩, []⟩

/-- The registration request of the scenario of the specification. -/
def alice : UserRegistrationRequest := ⟨⟨"alice1", "secret1"⟩, "secret1"⟩

/-- The identity the scenario stores for `alice`. -/
def aliceUser : User := ⟨1, "alice1", "$2a$10$secret1", ⟨1000⟩, ⟨1000⟩⟩

/-- The world after `alice` registered on the empty table. -/
def aliceWorld : World State := (module.UserRegistrator.RegisterUser alice emptyWorld).2

/-- A lookup that reports `ErrUserNotFound` and hands back a persisted identity with it. -/
def staleGetter : UserGetterByUsername State :=
  ⟨fun _ s => ((aliceUser, some ErrUserNotFound), s)⟩

end Demo

/-! ## Definitions used to state the properties -/

/-- The world left by running every validator of `vs` in order on `val`, whatever each
returns. For `vs.take i` it is the world in which the validator at index `i` is invoked
when those before it passed. -/
def validationAggregator.worldAfter {σ T : Type} (vs : List (Validator σ T)) (val : T)
    (w : World σ) : World σ :=
  vs.foldl (fun w1 v => (v val w1).2) w

/-- The format rules of a registration request as the specification lists them, in its
order: the field, the tag, and whether the request satisfies the rule. -/
def registrationRules : List (String × String × (UserRegistrationRequest → Bool)) :=
  [("username", "required", fun r => decide (r.Username ≠ "")),
   ("username", "min=3", fun r => decide (3 ≤ r.Username.length)),
   ("username", "max=15", fun r => decide (r.Username.length ≤ 15)),
   ("username", "alphanum", fun r => r.Username.data.all Char.isAlphanum),
   ("password", "required", fun r => decide (r.Password ≠ "")),
   ("password", "min=6", fun r => decide (6 ≤ r.Password.length)),
   ("password", "eqfield=password_confirmation",
     fun r => decide (r.Password = r.PasswordConfirmation))]

/-- The `(field, tag)` of the first rule of `registrationRules` the request violates. -/
def firstViolatedRule (req : UserRegistrationRequest) : Option (String × String) :=
  (registrationRules.find? (fun rule => !rule.2.2 req)).map (fun rule => (rule.1, rule.2.1))

/-- The registration request passes every format rule: a username of 3 to 15
alphanumeric characters, a password of 6 characters or more, equal to its confirmation. -/
def wellFormedRegistration (req : UserRegistrationRequest) : Prop :=
  3 ≤ req.Username.length ∧ req.Username.length ≤ 15 ∧
    (∀ c ∈ req.Username.data, c.isAlphanum = true) ∧
    6 ≤ req.Password.length ∧ req.Password = req.PasswordConfirmation

namespace Demo

/-- A database whose every query fails with a driver error. -/
def downDb : DB State :=
  { db with
    QueryRowScan := fun _ s =>
      ((User.zero, some (.sentinel (.foreign "dial tcp: connection refused"))), s) }

/-- The toy `bcrypt` with the length check of the package: a hash shorter than 59
characters is refused as malformed. -/
def strictBcrypt : Bcrypt State :=
  { bcrypt with
    CompareHashAndPassword := fun hashed plain s =>
      if hashed.length < 59 then
        (some (.sentinel
          (.foreign "crypto/bcrypt: hashedSecret too short to be a bcrypted password")), s)
      else bcrypt.CompareHashAndPassword hashed plain s }

end Demo

/-! ## Standard library functions used by `internal/http`

The functions of packages `time`, `strconv` and `strings` below belong to the Go standard
library, not to the repository. They are written after their documentation, for the
arguments the repository passes: base 10 and 64 bits for `strconv`, the separator `" "`
and the count 2 for `strings.SplitN`. Machine integers are unbounded `Int` and `Nat`;
the one place where Go's `uint64` arithmetic can wrap, the loop of `ParseUint`, reduces
modulo `2 ^ 64`. -/

/-- A `time.Duration`: a count of nanoseconds. -/
structure Duration where
  nanoseconds : Int
  deriving DecidableEq, Repr

/-- Go `(time.Time).Add(d)`. -/
def Time.Add (t : Time) (d : Duration) : Time := ⟨t.unixNano + d.nanoseconds⟩

/-- Go `(time.Time).Unix()`: the whole seconds since the Unix epoch, rounded down. -/
def Time.Unix (t : Time) : Int := t.unixNano / 1000000000

/-- The integer nearest to `q`; of two equally near, the even one. -/
def roundHalfEven (q : ℚ) : Int :=
  if q - ⌊q⌋ < 1 / 2 then ⌊q⌋
  else if 1 / 2 < q - ⌊q⌋ then ⌊q⌋ + 1
  else if ⌊q⌋ % 2 = 0 then ⌊q⌋ else ⌊q⌋ + 1

/-- The value of the `float64` that a conversion or an arithmetic operation with exact
result `x` gives: `x` rounded to nearest, ties to even, on 53 significant bits, and on
the fixed spacing `2 ^ (-1074)` below `2 ^ (-1022)`. A `float64` is given by its value, a
rational; overflow to infinity, from `2 ^ 1024` on, is left out: a count of seconds made
from an `int64` of nanoseconds stays under `2 ^ 34`. -/
def float64 (x : ℚ) : ℚ :=
  if x = 0 then 0
  else (roundHalfEven (x / (2 : ℚ) ^ (max (Int.log 2 |x|) (-1022) - 52)) : ℚ) *
    (2 : ℚ) ^ (max (Int.log 2 |x|) (-1022) - 52)

/-- Go `(time.Duration).Seconds()`: with `sec := d / Second` and `nsec := d % Second`
(Go's truncating division), `float64(sec) + float64(nsec)/1e9`, each conversion and each
operation rounded to a `float64`. -/
def Duration.Seconds (d : Duration) : ℚ :=
  float64 (float64 ((d.nanoseconds.tdiv 1000000000 : Int) : ℚ) +
    float64 (float64 ((d.nanoseconds.tmod 1000000000 : Int) : ℚ) / 1000000000))

namespace strconv

/-- The digit characters `"0123456789abcdefghijklmnopqrstuvwxyz"[d]`. -/
def digitByte (d : Nat) : Char :=
  if d < 10 then Char.ofNat (48 + d) else Char.ofNat (87 + d)

/-- The conversion loop of Go `strconv.FormatInt`: the digits of `u` in `base`, least
significant first, are put in front of `acc`. The first argument is the room left in
the 65-byte buffer of the Go function, which holds every 64-bit value in every base from
2 on. -/
def formatBits : Nat → Nat → Nat → List Char → List Char
  | 0, _, _, acc => acc
  | room + 1, u, base, acc =>
    if u ≥ base then formatBits room (u / base) base (digitByte (u % base) :: acc)
    else digitByte u :: acc

/-- Go `strconv.FormatInt(i, base)` for `2 ≤ base ≤ 36`: the digits of the absolute
value, after a `-` when `i` is negative. -/
def FormatInt (i : Int) (base : Nat) : String :=
  if i < 0 then ⟨'-' :: formatBits 65 i.natAbs base []⟩ else ⟨formatBits 65 i.natAbs base []⟩

/-- The value of a digit character in Go `strconv.ParseUint`: `0`-`9`, then the letters
of either case from 10 on. -/
def digitValue (c : Char) : Option Nat :=
  if '0' ≤ c ∧ c ≤ '9' then some (c.toNat - 48)
  else if 'a' ≤ c ∧ c ≤ 'z' then some (c.toNat - 97 + 10)
  else if 'A' ≤ c ∧ c ≤ 'Z' then some (c.toNat - 65 + 10)
  else none

/-- The two errors of `strconv`. -/
inductive NumErr where
  | ErrSyntax
  | ErrRange
  deriving DecidableEq, Repr

/-- The loop of Go `strconv.ParseUint` over the characters, for a base from 2 to 36:
`n` is the value read so far, a `uint64`. -/
def parseUintLoop (base maxVal : Nat) : List Char → Nat → Nat × Option NumErr
  | [], n => (n, none)
  | c :: cs, n =>
    match digitValue c with
    | none => (0, some .ErrSyntax)
    | some d =>
      if d ≥ base then (0, some .ErrSyntax)
      else if n ≥ (2 ^ 64 - 1) / base + 1 then (maxVal, some .ErrRange)
      else
        let n1 := (n * base + d) % 2 ^ 64
        if n1 < n * base ∨ n1 > maxVal then (maxVal, some .ErrRange)
        else parseUintLoop base maxVal cs n1

/-- Go `strconv.ParseUint(s, base, bitSize)` for `2 ≤ base ≤ 36` and
`1 ≤ bitSize ≤ 64`. -/
def ParseUint (s : List Char) (base bitSize : Nat) : Nat × Option NumErr :=
  if s = [] then (0, some .ErrSyntax) else parseUintLoop base (2 ^ bitSize - 1) s 0

/-- One character of Go `strconv.Quote`: the double quote and the backslash take a
backslash, the control characters of ASCII are written `\a`, `\b`, `\f`, `\n`, `\r`,
`\t`, `\v` or `\x` and two hexadecimal digits, and the printable characters of ASCII
stand for themselves. A character outside ASCII stands for itself too, which is what Go
does with the printable ones. -/
def quoteRune (c : Char) : List Char :=
  if c = Char.ofNat 34 ∨ c = Char.ofNat 92 then [Char.ofNat 92, c]
  else if 32 ≤ c.toNat ∧ c.toNat ≠ 127 then [c]
  else if c.toNat = 7 then [Char.ofNat 92, 'a']
  else if c.toNat = 8 then [Char.ofNat 92, 'b']
  else if c.toNat = 12 then [Char.ofNat 92, 'f']
  else if c.toNat = 10 then [Char.ofNat 92, 'n']
  else if c.toNat = 13 then [Char.ofNat 92, 'r']
  else if c.toNat = 9 then [Char.ofNat 92, 't']
  else if c.toNat = 11 then [Char.ofNat 92, 'v']
  else [Char.ofNat 92, 'x', digitByte (c.toNat / 16), digitByte (c.toNat % 16)]

/-- Go `strconv.Quote(s)`: `s` between double quotes, each character as `quoteRune`
writes it. -/
def Quote (s : String) : String :=
  ⟨Char.ofNat 34 :: (s.data.flatMap quoteRune ++ [Char.ofNat 34])⟩

/-- The `*strconv.NumError` of `ParseInt` on `s`, which unwraps to `ErrSyntax` or
`ErrRange`; its text is `strconv.ParseInt: parsing ` followed by the quoted input, a
colon and the text of the error it unwraps to. -/
def numError (s : String) : NumErr → GoError
  | .ErrSyntax =>
    .wrap ("strconv.ParseInt: parsing " ++ Quote s) (.sentinel (.foreign "invalid syntax"))
  | .ErrRange =>
    .wrap ("strconv.ParseInt: parsing " ++ Quote s) (.sentinel (.foreign "value out of range"))

/-- The end of Go `strconv.ParseInt`, once the sign is taken off and the digits are
read as `un`. -/
def parseIntFinish (s : String) (bitSize : Nat) (neg : Bool) :
    Nat × Option NumErr → Int × Option GoError
  | (_, some .ErrSyntax) => (0, some (numError s .ErrSyntax))
  | (un, _) =>
    let cutoff := 2 ^ (bitSize - 1)
    if !neg ∧ un ≥ cutoff then ((cutoff : Int) - 1, some (numError s .ErrRange))
    else if neg ∧ un > cutoff then (-(cutoff : Int), some (numError s .ErrRange))
    else if neg then (-(un : Int), none) else ((un : Int), none)

/-- Go `strconv.ParseInt(s, base, bitSize)` for `2 ≤ base ≤ 36` and
`1 ≤ bitSize ≤ 64`. -/
def ParseInt (s : String) (base bitSize : Nat) : Int × Option GoError :=
  match s.data with
  | [] => (0, some (numError s .ErrSyntax))
  | c :: rest =>
    if c = '+' then parseIntFinish s bitSize false (ParseUint rest base bitSize)
    else if c = '-' then parseIntFinish s bitSize true (ParseUint rest base bitSize)
    else parseIntFinish s bitSize false (ParseUint (c :: rest) base bitSize)

end strconv

namespace strings

/-- Go `strings.Contains(s, substr)`. -/
def Contains (s substr : String) : Bool := decide (substr.data <:+: s.data)

/-- Go `strings.SplitN(s, " ", 2)`: `s` alone when it has no space, else the part
before the first space and the part after it. -/
def SplitN (s : String) : List String :=
  match s.data.span (fun c => decide (c ≠ ' ')) with
  | (_, []) => [s]
  | (before, _ :: after) => [⟨before⟩, ⟨after⟩]

end strings

/-! ## `internal/http/user.go` and `internal/http/auth.go` -/

/-- `jwt.StandardClaims` of the dgrijalva/jwt-go library. -/
structure StandardClaims where
  Audience : String
  ExpiresAt : Int
  Id : String
  IssuedAt : Int
  Issuer : String
  NotBefore : Int
  Subject : String
  deriving DecidableEq, Repr

/-- The zero value `jwt.StandardClaims{}`. -/
def StandardClaims.zero : StandardClaims := ⟨"", 0, "", 0, "", 0, ""⟩

/-- The jwt-go library, as far as `internal/http` uses it. `SignedString claims key` is
`jwt.NewWithClaims(jwt.SigningMethodHS512, claims).SignedString(key)`.
`ParseWithClaims token key` is `jwt.ParseWithClaims(token, &claims, keyFunc)` with a
`keyFunc` that returns `key`: it gives the claims left behind the pointer and the error;
it reads the clock to check the expiry. -/
structure Jwt (σ : Type) where
  SignedString : StandardClaims → String → String × Option GoError
  ParseWithClaims : String → String → σ → StandardClaims × Option GoError

/-- `JWTUserPresenter` of `internal/http/user.go`, with the jwt-go library it calls. -/
structure JWTUserPresenter (σ : Type) where
  jwt : Jwt σ
  timer : Timer σ
  url : String
  lifeTime : Duration
  secret : String

/-- The body `Present` sends with status 200; `expires_in` is a `float64`, given by its
value. -/
structure TokenResponse where
  status : Nat
  access_token : String
  expires_in : ℚ
  deriving DecidableEq, Repr

/-- The `jwt.StandardClaims{...}` literal of `JWTUserPresenter.Present`, for the instant
`now` read from the timer. -/
def JWTUserPresenter.claims {σ : Type} (p : JWTUserPresenter σ) (user : User) (now : Time) :
    StandardClaims :=
  { StandardClaims.zero with
    Audience := strconv.FormatInt user.ID 10
    Issuer := p.url
    IssuedAt := now.Unix
    ExpiresAt := (now.Add p.lifeTime).Unix }

/-- `JWTUserPresenter.Present`: the response written to the fiber context, when there is
one, and the error returned. -/
def JWTUserPresenter.Present {σ : Type} (p : JWTUserPresenter σ) (user : User) (w : World σ) :
    (Option TokenResponse × Option GoError) × World σ :=
  let (now, s1) := p.timer.Now w.state
  let w1 := w.record .Now s1
  match p.jwt.SignedString (p.claims user now) p.secret with
  | (_, some err) => ((none, some (.wrap "generating jwt token from user" err)), w1)
  | (accessToken, none) => ((some ⟨200, accessToken, p.lifeTime.Seconds⟩, none), w1)

/-- `NewJWTUserPresenter`; the jwt-go library is made explicit. -/
def NewJWTUserPresenter {σ : Type} (jwt : Jwt σ) (timer : Timer σ) (url : String)
    (lifeTime : Duration) (secret : String) : JWTUserPresenter σ :=
  ⟨jwt, timer, url, lifeTime, secret⟩

/-- `JWTAuthenticationMiddleware` of `internal/http/auth.go`, with the jwt-go library it
calls. -/
structure JWTAuthenticationMiddleware (σ : Type) where
  jwt : Jwt σ
  secret : String

/-- What `JWTAuthenticationMiddleware.Handle` does with the request: answer 401
"unauthorized", answer 500 with the error text, or store the user identifier in the
context and call the next handler. -/
inductive MiddlewareResult where
  | unauthorized
  | internalServerError (err : GoError)
  | next (userID : Int)
  deriving DecidableEq, Repr

/-- `JWTAuthenticationMiddleware.Handle`, on the value of the Authorization header. -/
def JWTAuthenticationMiddleware.Handle {σ : Type} (m : JWTAuthenticationMiddleware σ)
    (authHeader : String) (s : σ) : MiddlewareResult :=
  if !strings.Contains authHeader "Bearer" then .unauthorized
  else
    match strings.SplitN authHeader with
    | _ :: token :: _ =>
      match m.jwt.ParseWithClaims token m.secret s with
      | (_, some _) => .unauthorized
      | (claims, none) =>
        match strconv.ParseInt claims.Audience 10 64 with
        | (_, some err) => .internalServerError err
        | (userID, none) => .next userID
    | _ => .unauthorized

/-- `NewJWTAuthenticationMiddleware`; the jwt-go library is made explicit. -/
def NewJWTAuthenticationMiddleware {σ : Type} (jwt : Jwt σ) (secret : String) :
    JWTAuthenticationMiddleware σ :=
  ⟨jwt, secret⟩

namespace Demo

/-- A toy jwt library: the token of claims is `"jwt:"` followed by their audience, and
parsing reads the audience back. -/
def jwt : Jwt State where
  SignedString := fun claims _ => ("jwt:" ++ claims.Audience, none)
  ParseWithClaims := fun token _ _ =>
    if token.data.take 4 = "jwt:".data then
      ({ StandardClaims.zero with Audience := ⟨token.data.drop 4⟩ }, none)
    else (StandardClaims.zero, some (.sentinel (.foreign "token is malformed")))

/-- A presenter over the toy library and the counting clock, with a lifetime of one
hour. -/
def presenter : JWTUserPresenter State :=
  NewJWTUserPresenter jwt (NewTimer timeNow) "http://localhost" ⟨3600000000000⟩ "key"

/-- The same presenter with a lifetime of one second and a half. -/
def shortPresenter : JWTUserPresenter State :=
  NewJWTUserPresenter jwt (NewTimer timeNow) "http://localhost" ⟨1500000000⟩ "key"

/-- The middleware over the toy library. -/
def middleware : JWTAuthenticationMiddleware State := NewJWTAuthenticationMiddleware jwt "key"

/-- A world whose clock stands half a second after an instant with whole seconds. -/
def halfSecondWorld : World State := ⟨⟨[], 500000000⟩, []⟩

end Demo

/-! # Theorems -/

theorem validationAggregator.worldAfter_cons {σ T : Type} (a : Validator σ T)
    (vs : List (Validator σ T)) (val : T) (w : World σ) :
    validationAggregator.worldAfter (a :: vs) val w =
      validationAggregator.worldAfter vs val (a val w).2 := rfl

theorem validationAggregator.loop_spec {σ T : Type} (vs : List (Validator σ T)) (val : T) :
    ∀ (k : Nat) (w : World σ),
      ((∀ (i : Nat) (v : Validator σ T), vs[i]? = some v →
          (v val (validationAggregator.worldAfter (vs.take i) val w)).1 = none) ∧
        validationAggregator.loop vs k val w =
          (none, validationAggregator.worldAfter vs val w)) ∨
      ∃ (i : Nat) (v : Validator σ T) (e0 : GoError), vs[i]? = some v ∧
        (∀ (j : Nat) (u : Validator σ T), j < i → vs[j]? = some u →
          (u val (validationAggregator.worldAfter (vs.take j) val w)).1 = none) ∧
        v val (validationAggregator.worldAfter (vs.take i) val w) =
          (some e0, (validationAggregator.loop vs k val w).2) ∧
        (validationAggregator.loop vs k val w).1 =
          some (.wrap ("calling validator number " ++ toString (k + i)) e0) ∧
        ∀ later, validationAggregator.loop (vs.take (i + 1) ++ later) k val w =
          validationAggregator.loop vs k val w := by
  induction vs with
  | nil =>
    intro k w
    left
    exact ⟨by simp, rfl⟩
  | cons a rest ih =>
    intro k w
    rcases h : a val w with ⟨r, w1⟩
    cases r with
    | some e =>
      right
      refine ⟨0, a, e, by simp, ?_, ?_, ?_, ?_⟩
      · intro j u hj; omega
      · simp [validationAggregator.worldAfter, validationAggregator.loop, h]
      · simp [validationAggregator.loop, h]
      · intro later
        simp [validationAggregator.loop, h]
    | none =>
      have hw : (a val w).2 = w1 := by rw [h]
      have hloop : ∀ l, validationAggregator.loop (a :: l) k val w =
          validationAggregator.loop l (k + 1) val w1 := by
        intro l
        simp [validationAggregator.loop, h]
      rcases ih (k + 1) w1 with ⟨hall, hres⟩ | ⟨i, v, e0, hv, hlow, hfail, hout, hlater⟩
      · left
        refine ⟨?_, ?_⟩
        · intro i v hv
          cases i with
          | zero =>
            simp at hv
            subst hv
            simp [validationAggregator.worldAfter, h]
          | succ n =>
            simp at hv
            have := hall n v hv
            simpa [validationAggregator.worldAfter_cons, hw] using this
        · rw [hloop, hres, validationAggregator.worldAfter_cons, hw]
      · right
        refine ⟨i + 1, v, e0, by simpa using hv, ?_, ?_, ?_, ?_⟩
        · intro j u hj hu
          cases j with
          | zero =>
            simp at hu
            subst hu
            simp [validationAggregator.worldAfter, h]
          | succ n =>
            simp at hu
            have := hlow n u (by omega) hu
            simpa [validationAggregator.worldAfter_cons, hw] using this
        · rw [hloop]
          simpa [validationAggregator.worldAfter_cons, hw] using hfail
        · rw [hloop, hout]
          have : k + 1 + i = k + (i + 1) := by omega
          rw [this]
        · intro later
          rw [hloop]
          have := hlater later
          simpa [hloop] using this

/-- C1: for an aggregator built by `NewValidationAggregator` (two validators or more) and
every request, `Validate` returns nil exactly when every validator returns nil, each in
the world left by those before it, and then every validator has run; otherwise some
index `i` holds the first validator that fails, the error returned is that validator's
error wrapped under "calling validator number i", the world returned is the one that
validator left, and the outcome is the same whatever validators stand after index `i`:
none of them is invoked. -/
theorem validationAggregator_Validate_fail_fast {σ T : Type} (v1 v2 : Validator σ T)
    (vn : List (Validator σ T)) (val : T) (w : World σ) :
    (((NewValidationAggregator v1 v2 vn).Validate val w).1 = none ↔
      ∀ (i : Nat) (v : Validator σ T), (v1 :: v2 :: vn)[i]? = some v →
        (v val (validationAggregator.worldAfter ((v1 :: v2 :: vn).take i) val w)).1 = none) ∧
    (((NewValidationAggregator v1 v2 vn).Validate val w).1 = none →
      ((NewValidationAggregator v1 v2 vn).Validate val w).2 =
        validationAggregator.worldAfter (v1 :: v2 :: vn) val w) ∧
    (∀ e : GoError, ((NewValidationAggregator v1 v2 vn).Validate val w).1 = some e →
      ∃ (i : Nat) (v : Validator σ T) (e0 : GoError),
        (v1 :: v2 :: vn)[i]? = some v ∧
        (∀ (j : Nat) (u : Validator σ T), j < i → (v1 :: v2 :: vn)[j]? = some u →
          (u val (validationAggregator.worldAfter ((v1 :: v2 :: vn).take j) val w)).1 = none) ∧
        v val (validationAggregator.worldAfter ((v1 :: v2 :: vn).take i) val w) =
          (some e0, ((NewValidationAggregator v1 v2 vn).Validate val w).2) ∧
        e = .wrap ("calling validator number " ++ toString i) e0 ∧
        errors.Is e = errors.Is e0 ∧
        errors.AsValidationError e = errors.AsValidationError e0 ∧
        ∀ later : List (Validator σ T),
          (validationAggregator.mk ((v1 :: v2 :: vn).take (i + 1) ++ later)).Validate val w =
            (NewValidationAggregator v1 v2 vn).Validate val w) := by
  have hdef : (NewValidationAggregator v1 v2 vn).Validate val w =
      validationAggregator.loop (v1 :: v2 :: vn) 0 val w := rfl
  rw [hdef]
  rcases validationAggregator.loop_spec (v1 :: v2 :: vn) val 0 w with
    ⟨hall, hres⟩ | ⟨i, v, e0, hv, hlow, hfail, hout, hlater⟩
  · refine ⟨⟨fun _ => hall, fun _ => by rw [hres]⟩, fun _ => by rw [hres], ?_⟩
    intro e he
    rw [hres] at he
    cases he
  · refine ⟨⟨?_, ?_⟩, ?_, ?_⟩
    · intro hnone
      rw [hout] at hnone
      cases hnone
    · intro hall
      have h1 := hall i v hv
      rw [hfail] at h1
      cases h1
    · intro hnone
      rw [hout] at hnone
      cases hnone
    · intro e he
      rw [hout] at he
      cases he
      refine ⟨i, v, e0, hv, hlow, hfail, by simp, ?_, ?_, ?_⟩
      · funext t
        simp [errors.Is]
      · simp [errors.AsValidationError]
      · intro later
        exact hlater later

/-- C1 on a concrete request: with the request validator and the uniqueness validator
over the in-memory table, the username "ab" fails at index 0, and the first failing
validator exists as the theorem says. -/
theorem validationAggregator_Validate_fail_fast_witness :
    ((NewValidationAggregator NewUserRegistrationRequestValidator
        (NewUsernameUniquenessValidator (NewUserRepository Demo.db).toGetter).Validate
        []).Validate ⟨⟨"ab", "secret1"⟩, "secret1"⟩ Demo.emptyWorld).1 =
      some (.wrap "calling validator number 0" (.validationError "username" "min=3")) ∧
    ∃ (i : Nat) (v : Validator Demo.State UserRegistrationRequest) (e0 : GoError),
      [NewUserRegistrationRequestValidator,
        (NewUsernameUniquenessValidator (NewUserRepository Demo.db).toGetter).Validate][i]? =
          some v ∧
      GoError.wrap "calling validator number 0" (.validationError "username" "min=3") =
        .wrap ("calling validator number " ++ toString i) e0 :=
  ⟨by decide,
    match (validationAggregator_Validate_fail_fast NewUserRegistrationRequestValidator
      (NewUsernameUniquenessValidator (NewUserRepository Demo.db).toGetter).Validate []
      ⟨⟨"ab", "secret1"⟩, "secret1"⟩ Demo.emptyWorld).2.2 _ (by decide) with
    | ⟨i, v, e0, hv, _, _, he, _⟩ => ⟨i, v, e0, hv, he⟩⟩

theorem String.length_pos_of_ne_empty (s : String) (h : 0 < s.length) : s ≠ "" := by
  intro hs
  subst hs
  simp at h

theorem String.ne_empty_iff_length_pos (s : String) : s ≠ "" ↔ 0 < s.length := by
  constructor
  · intro h
    rcases s with ⟨l⟩
    cases l with
    | nil => exact absurd rfl h
    | cons a t => simp [String.length]
  · exact String.length_pos_of_ne_empty s

theorem userRegistrationRequestValidator.Validate_eq (req : UserRegistrationRequest) :
    userRegistrationRequestValidator.Validate req =
      (firstViolatedRule req).map (fun ft => GoError.validationError ft.1 ft.2) := by
  have hne := String.ne_empty_iff_length_pos req.Username
  simp only [userRegistrationRequestValidator.Validate, VarCtx, VarWithValueCtx, Tag.holds,
    userRegistrationRequestValidator.EvaluateErrorAs, errors.AsValidationErrors,
    NewValidationError, firstViolatedRule, registrationRules, List.find?]
  by_cases h1 : req.Username = ""
  · simp [errors.AsValidationErrors, h1]
  by_cases h2 : 3 ≤ req.Username.length
  swap
  · simp [errors.AsValidationErrors, h1, h2]
  by_cases h3 : req.Username.length ≤ 15
  swap
  · simp [errors.AsValidationErrors, h1, h2, h3]
  by_cases h4 : req.Username.data.all Char.isAlphanum = true
  swap
  · simp [errors.AsValidationErrors, h1, h2, h3, h4]
  by_cases h5 : req.Password = ""
  · simp [errors.AsValidationErrors, h1, h2, h3, h4, h5]
  by_cases h6 : 6 ≤ req.Password.length
  swap
  · simp [errors.AsValidationErrors, h1, h2, h3, h4, h5, h6]
  by_cases h7 : req.Password = req.PasswordConfirmation
  swap
  · simp [errors.AsValidationErrors, h1, h2, h3, h4, h5, h6, h7]
  have h5' : ¬ req.PasswordConfirmation = "" := h7 ▸ h5
  have h6' : 6 ≤ req.PasswordConfirmation.length := h7 ▸ h6
  simp [errors.AsValidationErrors, h1, h2, h3, h4, h5', h6', h7]

theorem userRegistrationRequestValidator.Validate_eq_none_iff
    (req : UserRegistrationRequest) :
    userRegistrationRequestValidator.Validate req = none ↔ wellFormedRegistration req := by
  have hu := String.ne_empty_iff_length_pos req.Username
  have hp := String.ne_empty_iff_length_pos req.Password
  rw [userRegistrationRequestValidator.Validate_eq]
  simp only [firstViolatedRule, registrationRules, wellFormedRegistration, Option.map_eq_none',
    List.find?_eq_none]
  simp
  constructor
  · rintro ⟨-, h2, h3, h4, -, h6, h7⟩
    exact ⟨h2, h3, h4, h6, h7⟩
  · rintro ⟨h2, h3, h4, h6, h7⟩
    exact ⟨hu.2 (by omega), h2, h3, h4, hp.2 (by omega), h6, h7⟩

theorem userRegistrationRequestValidator.Validate_some (req : UserRegistrationRequest)
    (e : GoError) (h : userRegistrationRequestValidator.Validate req = some e) :
    ∃ field tag, e = .validationError field tag ∧ firstViolatedRule req = some (field, tag) := by
  rw [userRegistrationRequestValidator.Validate_eq] at h
  cases hf : firstViolatedRule req with
  | none => simp [hf] at h
  | some ft =>
    rcases ft with ⟨f, t⟩
    simp [hf] at h
    exact ⟨f, t, h.symm, rfl⟩

/-- C2: `userRegistrationRequestValidator.Validate` returns the `ValidationError` whose
field and tag are those of the first rule violated in the order username required,
username min=3, username max=15, username alphanum, password required, password min=6,
password eqfield=password_confirmation; and it returns nil exactly when the username has
3 to 15 characters, all alphanumeric, the password has 6 characters or more and the
password equals its confirmation. -/
theorem userRegistrationRequestValidator_Validate_first_violated_rule
    (req : UserRegistrationRequest) :
    userRegistrationRequestValidator.Validate req =
      (firstViolatedRule req).map (fun ft => NewValidationError ft.1 ft.2) ∧
    (userRegistrationRequestValidator.Validate req = none ↔
      (3 ≤ req.Username.length ∧ req.Username.length ≤ 15 ∧
        (∀ c ∈ req.Username.data, c.isAlphanum = true) ∧
        6 ≤ req.Password.length ∧ req.Password = req.PasswordConfirmation)) :=
  ⟨userRegistrationRequestValidator.Validate_eq req,
    userRegistrationRequestValidator.Validate_eq_none_iff req⟩

/-- C2 on concrete requests: one request for each rule, violating that rule first, and a
request that passes. -/
theorem userRegistrationRequestValidator_Validate_first_violated_rule_witness :
    userRegistrationRequestValidator.Validate ⟨⟨"", ""⟩, "x"⟩ =
        some (.validationError "username" "required") ∧
      userRegistrationRequestValidator.Validate ⟨⟨"ab", ""⟩, "x"⟩ =
        some (.validationError "username" "min=3") ∧
      userRegistrationRequestValidator.Validate ⟨⟨"abcdefghijklmnop", ""⟩, "x"⟩ =
        some (.validationError "username" "max=15") ∧
      userRegistrationRequestValidator.Validate ⟨⟨"alice 1", ""⟩, "x"⟩ =
        some (.validationError "username" "alphanum") ∧
      userRegistrationRequestValidator.Validate ⟨⟨"alice1", ""⟩, "x"⟩ =
        some (.validationError "password" "required") ∧
      userRegistrationRequestValidator.Validate ⟨⟨"alice1", "secre"⟩, "x"⟩ =
        some (.validationError "password" "min=6") ∧
      userRegistrationRequestValidator.Validate ⟨⟨"alice1", "secret1"⟩, "x"⟩ =
        some (.validationError "password" "eqfield=password_confirmation") ∧
      userRegistrationRequestValidator.Validate Demo.alice = none :=
  ⟨(userRegistrationRequestValidator_Validate_first_violated_rule _).1.trans (by decide),
    (userRegistrationRequestValidator_Validate_first_violated_rule _).1.trans (by decide),
    (userRegistrationRequestValidator_Validate_first_violated_rule _).1.trans (by decide),
    (userRegistrationRequestValidator_Validate_first_violated_rule _).1.trans (by decide),
    (userRegistrationRequestValidator_Validate_first_violated_rule _).1.trans (by decide),
    (userRegistrationRequestValidator_Validate_first_violated_rule _).1.trans (by decide),
    (userRegistrationRequestValidator_Validate_first_violated_rule _).1.trans (by decide),
    (userRegistrationRequestValidator_Validate_first_violated_rule _).2.2 (by decide)⟩

theorem validationAggregator.label_zero :
    "calling validator number " ++ toString 0 = "calling validator number 0" := by decide

theorem validationAggregator.label_one :
    "calling validator number " ++ toString (0 + 1) = "calling validator number 1" := by decide

theorem Service.registrationValidator_apply {σ : Type} (getter : UserGetterByUsername σ)
    (req : UserRegistrationRequest) (w : World σ) :
    Service.registrationValidator getter req w =
      match userRegistrationRequestValidator.Validate req with
      | some e => (some (.wrap "calling validator number 0" e), w)
      | none =>
        match (NewUsernameUniquenessValidator getter).Validate req w with
        | (some e, w1) => (some (.wrap "calling validator number 1" e), w1)
        | (none, w1) => (none, w1) := by
  simp only [Service.registrationValidator, validationAggregator.Validate,
    NewValidationAggregator, List.cons_append, List.nil_append, validationAggregator.loop,
    NewUserRegistrationRequestValidator, validationAggregator.label_zero,
    validationAggregator.label_one]
  cases userRegistrationRequestValidator.Validate req with
  | some e => rfl
  | none =>
    rcases h : (NewUsernameUniquenessValidator getter).Validate req w with ⟨r, w1⟩
    cases r <;> simp [h]

theorem usernameUniquenessValidator.Validate_apply {σ : Type} (getter : UserGetterByUsername σ)
    (req : UserRegistrationRequest) (w : World σ) (user : User) (err : Option GoError) (s1 : σ)
    (h : getter.GetUserByUsername req.Username w.state = ((user, err), s1)) :
    (NewUsernameUniquenessValidator getter).Validate req w =
      (match err with
        | some e =>
          if errors.Is e .ErrUserNotFound = false then
            some (GoError.wrap "getting user by username" e)
          else if user.ID > 0 then some (NewValidationError "username" "unique") else none
        | none => if user.ID > 0 then some (NewValidationError "username" "unique") else none,
        w.record (.GetUserByUsername req.Username) s1) := by
  simp only [usernameUniquenessValidator.Validate, NewUsernameUniquenessValidator, h]
  cases err with
  | none => by_cases hid : user.ID > 0 <;> simp [hid]
  | some e =>
    by_cases hnf : errors.Is e .ErrUserNotFound = true
    · by_cases hid : user.ID > 0 <;> simp [hid, hnf]
    · simp [hnf]

theorem wellFormedRegistration.authentication_valid (req : UserRegistrationRequest)
    (h : wellFormedRegistration req) :
    userAuthenticationRequestValidator.Validate req.toUserAuthenticationRequest = none := by
  rcases h with ⟨h2, _, _, h6, _⟩
  have hu : req.Username ≠ "" := String.length_pos_of_ne_empty _ (by omega)
  have hp : req.Password ≠ "" := String.length_pos_of_ne_empty _ (by omega)
  simp [userAuthenticationRequestValidator.Validate, VarCtx, Tag.holds, hu, hp]

/-- C3: a well-formed registration request whose username the store reports as not
found (with an identity that has no positive identifier), a hasher that succeeds, a
store that writes a positive identifier through the pointer: `RegisterUser` (wired as in
`Service.Provide`) succeeds with that identity; and `AuthenticateUser` with the same
username and plaintext, in any later world where the lookup returns the stored identity
and the comparison of the stored hash with the plaintext succeeds, returns that same
identity. -/
theorem RegisterUser_then_AuthenticateUser {σ : Type} (timer : Timer σ) (hasher : Hasher σ)
    (comparator : Comparator σ) (getter : UserGetterByUsername σ) (storer : UserStorer σ)
    (req : UserRegistrationRequest) (w later : World σ) (absent : User) (notFound : GoError)
    (hashed : String) (now : Time) (id : Int) (s1 s2 s3 s4 s5 s6 : σ)
    (hvalid : wellFormedRegistration req)
    (hlookup : getter.GetUserByUsername req.Username w.state = ((absent, some notFound), s1))
    (hnotFound : errors.Is notFound .ErrUserNotFound = true)
    (habsent : absent.ID ≤ 0)
    (hhash : hasher.Hash req.Password s1 = ((hashed, none), s2))
    (hnow : timer.Now s2 = (now, s3))
    (hstore : storer.StoreUser ⟨0, req.Username, hashed, now, now⟩ s3 =
      ((⟨id, req.Username, hashed, now, now⟩, none), s4))
    (hid : 0 < id)
    (hget : getter.GetUserByUsername req.Username later.state =
      ((⟨id, req.Username, hashed, now, now⟩, none), s5))
    (hcompare : comparator.Compare hashed req.Password s5 = (none, s6)) :
    (Service.wire timer hasher comparator getter storer).UserRegistrator.RegisterUser req w =
      ((⟨id, req.Username, hashed, now, now⟩, none),
        ⟨s4, w.calls ++ [.GetUserByUsername req.Username, .Hash req.Password, .Now,
          .StoreUser ⟨0, req.Username, hashed, now, now⟩]⟩) ∧
    0 < (⟨id, req.Username, hashed, now, now⟩ : User).ID ∧
    (Service.wire timer hasher comparator getter storer).UserAuthenticator.AuthenticateUser
        req.toUserAuthenticationRequest later =
      ((⟨id, req.Username, hashed, now, now⟩, none),
        ⟨s6, later.calls ++ [.GetUserByUsername req.Username,
          .Compare hashed req.Password]⟩) := by
  have hfmt := (userRegistrationRequestValidator.Validate_eq_none_iff req).2 hvalid
  have huniq := usernameUniquenessValidator.Validate_apply getter req w absent
    (some notFound) s1 hlookup
  have hnotpos : ¬ absent.ID > 0 := by omega
  simp only [hnotFound, hnotpos, if_false, Bool.true_eq_false] at huniq
  have hval : Service.registrationValidator getter req w =
      (none, w.record (.GetUserByUsername req.Username) s1) := by
    rw [Service.registrationValidator_apply, hfmt]
    simp only [huniq]
  have hauth := wellFormedRegistration.authentication_valid req hvalid
  refine ⟨?_, hid, ?_⟩
  · simp [Service.wire, NewUserRegistrator, userRegistrator.RegisterUser, hval, World.record,
      hhash, hnow, hstore]
  · simp [Service.wire, NewUserAuthenticator, userAuthenticator.AuthenticateUser,
      NewUserAuthenticationRequestValidator, hauth, World.record, hget, hcompare]
/-- C3 on the scenario of the specification: "alice1" registers on the empty in-memory
table and then authenticates with the same password. -/
theorem RegisterUser_then_AuthenticateUser_witness :
    (Demo.module.UserRegistrator.RegisterUser Demo.alice Demo.emptyWorld).1 =
      (Demo.aliceUser, none) ∧
    0 < Demo.aliceUser.ID ∧
    (Demo.module.UserAuthenticator.AuthenticateUser ⟨"alice1", "secret1"⟩
      (Demo.module.UserRegistrator.RegisterUser Demo.alice Demo.emptyWorld).2).1 =
      (Demo.aliceUser, none) :=
  have h := RegisterUser_then_AuthenticateUser (NewTimer Demo.timeNow)
    (NewBcryptHasher Demo.bcrypt 10).toHasher (NewBcryptHasher Demo.bcrypt 10).toComparator
    (NewUserRepository Demo.db).toGetter (NewUserRepository Demo.db).toStorer
    Demo.alice Demo.emptyWorld
    (Demo.module.UserRegistrator.RegisterUser Demo.alice Demo.emptyWorld).2
    User.zero
    (.wrap "querying mysql users table" (.wrap2 ErrUserNotFound (.sentinel sqlErrNoRows)))
    "$2a$10$secret1" ⟨1000⟩ 1
    ⟨[], 1000⟩ ⟨[], 1000⟩ ⟨[], 1001⟩ ⟨[Demo.aliceUser], 1001⟩ ⟨[Demo.aliceUser], 1001⟩
    ⟨[Demo.aliceUser], 1001⟩
    (by unfold wellFormedRegistration; decide) (by decide) (by decide) (by decide)
    (by decide) (by decide) (by decide)
    (by decide) (by decide) (by decide)
  ⟨congrArg Prod.fst h.1, h.2.1, congrArg Prod.fst h.2.2⟩

/-- C4: for authentication requests that pass validation, a lookup that fails with an
error for which `errors.Is(err, ErrUserNotFound)` holds, and a lookup that succeeds
followed by a comparison that fails with an error for which
`errors.Is(err, ErrHashMismatched)` holds, both make `AuthenticateUser` return the zero
identity and exactly `ErrUnauthenticated`; the two returned values are equal. -/
theorem AuthenticateUser_unknown_user_and_wrong_password_alike {σ : Type}
    (ua : userAuthenticator σ) (reqA reqB : UserAuthenticationRequest) (wA wB wA1 wB1 : World σ)
    (userA userB : User) (errA errB : GoError) (sA sB sB1 : σ)
    (hvalidA : ua.validator reqA wA = (none, wA1))
    (hlookupA : ua.userGetterByUsername.GetUserByUsername reqA.Username wA1.state =
      ((userA, some errA), sA))
    (hnotFound : errors.Is errA .ErrUserNotFound = true)
    (hvalidB : ua.validator reqB wB = (none, wB1))
    (hlookupB : ua.userGetterByUsername.GetUserByUsername reqB.Username wB1.state =
      ((userB, none), sB))
    (hcompareB : ua.comparator.Compare userB.Password reqB.Password sB = (some errB, sB1))
    (hmismatch : errors.Is errB .ErrHashMismatched = true) :
    (ua.AuthenticateUser reqA wA).1 = (User.zero, some ErrUnauthenticated) ∧
    (ua.AuthenticateUser reqB wB).1 = (User.zero, some ErrUnauthenticated) ∧
    (ua.AuthenticateUser reqA wA).1 = (ua.AuthenticateUser reqB wB).1 := by
  have hA : (ua.AuthenticateUser reqA wA).1 = (User.zero, some ErrUnauthenticated) := by
    simp [userAuthenticator.AuthenticateUser, hvalidA, hlookupA, errors.Is, hnotFound]
  have hB : (ua.AuthenticateUser reqB wB).1 = (User.zero, some ErrUnauthenticated) := by
    simp [userAuthenticator.AuthenticateUser, hvalidB, hlookupB, World.record, hcompareB,
      errors.Is, hmismatch]
  exact ⟨hA, hB, hA.trans hB.symm⟩

/-- C4 on the scenario of the specification: after "alice1" registered, a login of the
unknown "bob123" and a login of "alice1" with a wrong password return the same value. -/
theorem AuthenticateUser_unknown_user_and_wrong_password_alike_witness :
    (Demo.module.UserAuthenticator.AuthenticateUser ⟨"bob123", "secret1"⟩ Demo.aliceWorld).1 =
      (User.zero, some ErrUnauthenticated) ∧
    (Demo.module.UserAuthenticator.AuthenticateUser ⟨"alice1", "wrong"⟩ Demo.aliceWorld).1 =
      (User.zero, some ErrUnauthenticated) ∧
    (Demo.module.UserAuthenticator.AuthenticateUser ⟨"bob123", "secret1"⟩ Demo.aliceWorld).1 =
      (Demo.module.UserAuthenticator.AuthenticateUser ⟨"alice1", "wrong"⟩ Demo.aliceWorld).1 :=
  AuthenticateUser_unknown_user_and_wrong_password_alike Demo.module.UserAuthenticator
    ⟨"bob123", "secret1"⟩ ⟨"alice1", "wrong"⟩ Demo.aliceWorld Demo.aliceWorld Demo.aliceWorld
    Demo.aliceWorld User.zero Demo.aliceUser
    (.wrap "querying mysql users table" (.wrap2 ErrUserNotFound (.sentinel sqlErrNoRows)))
    (.wrap "comparing bcrypt hash with plain" ErrHashMismatched)
    ⟨[Demo.aliceUser], 1001⟩ ⟨[Demo.aliceUser], 1001⟩ ⟨[Demo.aliceUser], 1001⟩
    rfl (by decide) (by decide) rfl (by decide) (by decide) (by decide)

theorem Service.registrationValidator_format_error {σ : Type} (getter : UserGetterByUsername σ)
    (req : UserRegistrationRequest) (w : World σ) (e : GoError)
    (h : userRegistrationRequestValidator.Validate req = some e) :
    Service.registrationValidator getter req w =
      (some (.wrap "calling validator number 0" e), w) := by
  rw [Service.registrationValidator_apply, h]

theorem firstViolatedRule_of_mismatch (req : UserRegistrationRequest)
    (h2 : 3 ≤ req.Username.length) (h3 : req.Username.length ≤ 15)
    (h4 : ∀ c ∈ req.Username.data, c.isAlphanum = true) (h6 : 6 ≤ req.Password.length)
    (h7 : req.Password ≠ req.PasswordConfirmation) :
    firstViolatedRule req = some ("password", "eqfield=password_confirmation") := by
  have hu : req.Username ≠ "" := String.length_pos_of_ne_empty _ (by omega)
  have hp : req.Password ≠ "" := String.length_pos_of_ne_empty _ (by omega)
  have h4' : req.Username.data.all Char.isAlphanum = true := by simpa using h4
  simp [firstViolatedRule, registrationRules, List.find?, hu, hp, h2, h3, h4', h6, h7]

theorem userRegistrator.RegisterUser_format_error {σ : Type} (timer : Timer σ)
    (hasher : Hasher σ) (comparator : Comparator σ) (getter : UserGetterByUsername σ)
    (storer : UserStorer σ) (req : UserRegistrationRequest) (w : World σ)
    (h : ¬ wellFormedRegistration req) :
    ∃ field tag, firstViolatedRule req = some (field, tag) ∧
      (Service.wire timer hasher comparator getter storer).UserRegistrator.RegisterUser req w =
        ((User.zero, some (.wrap "validating user registration request"
          (.wrap "calling validator number 0" (.validationError field tag)))), w) := by
  cases hv : userRegistrationRequestValidator.Validate req with
  | none => exact absurd ((userRegistrationRequestValidator.Validate_eq_none_iff req).1 hv) h
  | some e =>
    obtain ⟨field, tag, he, hrule⟩ := userRegistrationRequestValidator.Validate_some req e hv
    subst he
    refine ⟨field, tag, hrule, ?_⟩
    simp [Service.wire, NewUserRegistrator, userRegistrator.RegisterUser,
      Service.registrationValidator_format_error getter req w _ hv]

/-- C5, amended: when the password differs from its confirmation, `RegisterUser` (wired
as in `Service.Provide`) returns the zero identity and the `ValidationError` of the
first violated format rule, wrapped, and leaves the world as it was: no collaborator is
called, so `StoreUser` is not invoked. That error is field "password", tag
"eqfield=password_confirmation" when the six earlier rules pass (username of 3 to 15
alphanumeric characters, password of 6 characters or more). -/
theorem RegisterUser_password_confirmation_mismatch {σ : Type} (timer : Timer σ)
    (hasher : Hasher σ) (comparator : Comparator σ) (getter : UserGetterByUsername σ)
    (storer : UserStorer σ) (req : UserRegistrationRequest) (w : World σ)
    (hmismatch : req.Password ≠ req.PasswordConfirmation) :
    ∃ field tag, firstViolatedRule req = some (field, tag) ∧
      (Service.wire timer hasher comparator getter storer).UserRegistrator.RegisterUser req w =
        ((User.zero, some (.wrap "validating user registration request"
          (.wrap "calling validator number 0" (.validationError field tag)))), w) ∧
      errors.AsValidationError (.wrap "validating user registration request"
          (.wrap "calling validator number 0" (.validationError field tag))) =
        some (field, tag) ∧
      (3 ≤ req.Username.length ∧ req.Username.length ≤ 15 ∧
          (∀ c ∈ req.Username.data, c.isAlphanum = true) ∧ 6 ≤ req.Password.length →
        field = "password" ∧ tag = "eqfield=password_confirmation") := by
  have hnot : ¬ wellFormedRegistration req := fun hw => hmismatch hw.2.2.2.2
  obtain ⟨field, tag, hrule, hres⟩ :=
    userRegistrator.RegisterUser_format_error timer hasher comparator getter storer req w hnot
  refine ⟨field, tag, hrule, hres, rfl, ?_⟩
  rintro ⟨h2, h3, h4, h6⟩
  have := firstViolatedRule_of_mismatch req h2 h3 h4 h6 hmismatch
  rw [hrule] at this
  simpa using this

/-- C5, amended, on a concrete request: "alice1" with password "secret1" confirmed as
"secret2" on the empty in-memory table. -/
theorem RegisterUser_password_confirmation_mismatch_witness :
    ∃ field tag, firstViolatedRule ⟨⟨"alice1", "secret1"⟩, "secret2"⟩ = some (field, tag) ∧
      Demo.module.UserRegistrator.RegisterUser ⟨⟨"alice1", "secret1"⟩, "secret2"⟩
          Demo.emptyWorld =
        ((User.zero, some (.wrap "validating user registration request"
          (.wrap "calling validator number 0" (.validationError field tag)))),
          Demo.emptyWorld) ∧
      field = "password" ∧ tag = "eqfield=password_confirmation" :=
  match RegisterUser_password_confirmation_mismatch (NewTimer Demo.timeNow)
    (NewBcryptHasher Demo.bcrypt 10).toHasher (NewBcryptHasher Demo.bcrypt 10).toComparator
    (NewUserRepository Demo.db).toGetter (NewUserRepository Demo.db).toStorer
    ⟨⟨"alice1", "secret1"⟩, "secret2"⟩ Demo.emptyWorld (by decide) with
  | ⟨field, tag, hrule, hres, _, hwhich⟩ =>
    ⟨field, tag, hrule, hres, hwhich (by decide)⟩

/-- C5 as stated fails: the password differs from its confirmation and the username
"ab" is too short; the error is field "username", tag "min=3", not field "password", tag
"eqfield=password_confirmation". -/
theorem RegisterUser_password_confirmation_mismatch_counterexample :
    (⟨⟨"ab", "secret1"⟩, "secret2"⟩ : UserRegistrationRequest).Password ≠
      (⟨⟨"ab", "secret1"⟩, "secret2"⟩ : UserRegistrationRequest).PasswordConfirmation ∧
    (Demo.module.UserRegistrator.RegisterUser ⟨⟨"ab", "secret1"⟩, "secret2"⟩
        Demo.emptyWorld).1 =
      (User.zero, some (.wrap "validating user registration request"
        (.wrap "calling validator number 0" (.validationError "username" "min=3")))) ∧
    ((Demo.module.UserRegistrator.RegisterUser ⟨⟨"ab", "secret1"⟩, "secret2"⟩
        Demo.emptyWorld).1.2.bind errors.AsValidationError) ≠
      some ("password", "eqfield=password_confirmation") := by
  decide

/-- C6, amended: when the lookup of the request's username returns an identity with a
positive identifier, `RegisterUser` (wired as in `Service.Provide`) fails with field
"username", tag "unique" for every request that passes the format rules; a request that
violates a format rule (an empty, too short or unconfirmed password among them) fails
with the error of the first violated format rule and the store is not consulted. -/
theorem RegisterUser_username_taken {σ : Type} (timer : Timer σ) (hasher : Hasher σ)
    (comparator : Comparator σ) (getter : UserGetterByUsername σ) (storer : UserStorer σ)
    (req : UserRegistrationRequest) (w : World σ) (user : User) (s1 : σ)
    (hfound : getter.GetUserByUsername req.Username w.state = ((user, none), s1))
    (hid : 0 < user.ID) :
    (wellFormedRegistration req →
      (Service.wire timer hasher comparator getter storer).UserRegistrator.RegisterUser req w =
        ((User.zero, some (.wrap "validating user registration request"
          (.wrap "calling validator number 1" (.validationError "username" "unique")))),
          w.record (.GetUserByUsername req.Username) s1) ∧
      errors.AsValidationError (.wrap "validating user registration request"
          (.wrap "calling validator number 1" (.validationError "username" "unique"))) =
        some ("username", "unique")) ∧
    (¬ wellFormedRegistration req →
      ∃ field tag, firstViolatedRule req = some (field, tag) ∧
        (Service.wire timer hasher comparator getter storer).UserRegistrator.RegisterUser
            req w =
          ((User.zero, some (.wrap "validating user registration request"
            (.wrap "calling validator number 0" (.validationError field tag)))), w)) := by
  refine ⟨fun hvalid => ⟨?_, rfl⟩, fun hnot =>
    userRegistrator.RegisterUser_format_error timer hasher comparator getter storer req w hnot⟩
  have hfmt := (userRegistrationRequestValidator.Validate_eq_none_iff req).2 hvalid
  have huniq := usernameUniquenessValidator.Validate_apply getter req w user none s1 hfound
  have hpos : user.ID > 0 := hid
  simp only [hpos, if_true] at huniq
  have hval : Service.registrationValidator getter req w =
      (some (.wrap "calling validator number 1" (.validationError "username" "unique")),
        w.record (.GetUserByUsername req.Username) s1) := by
    rw [Service.registrationValidator_apply, hfmt]
    simp only [huniq, NewValidationError]
  simp [Service.wire, NewUserRegistrator, userRegistrator.RegisterUser, hval]

/-- C6, amended, on concrete requests: after "alice1" registered, a second well-formed
registration of "alice1" fails with field "username", tag "unique". -/
theorem RegisterUser_username_taken_witness :
    (Demo.module.UserRegistrator.RegisterUser ⟨⟨"alice1", "another1"⟩, "another1"⟩
        Demo.aliceWorld).1 =
      (User.zero, some (.wrap "validating user registration request"
        (.wrap "calling validator number 1" (.validationError "username" "unique")))) :=
  congrArg Prod.fst ((RegisterUser_username_taken (NewTimer Demo.timeNow)
    (NewBcryptHasher Demo.bcrypt 10).toHasher (NewBcryptHasher Demo.bcrypt 10).toComparator
    (NewUserRepository Demo.db).toGetter (NewUserRepository Demo.db).toStorer
    ⟨⟨"alice1", "another1"⟩, "another1"⟩ Demo.aliceWorld Demo.aliceUser
    ⟨[Demo.aliceUser], 1001⟩ (by decide) (by decide)).1
      (by unfold wellFormedRegistration; decide)).1

/-- C6 as stated fails: after "alice1" registered, the lookup of "alice1" returns an
identity with the positive identifier 1, and a registration of "alice1" with an empty
password fails with field "password", tag "required", not field "username", tag
"unique". -/
theorem RegisterUser_username_taken_counterexample :
    (NewUserRepository Demo.db).toGetter.GetUserByUsername "alice1" Demo.aliceWorld.state =
      ((Demo.aliceUser, none), Demo.aliceWorld.state) ∧
    0 < Demo.aliceUser.ID ∧
    (Demo.module.UserRegistrator.RegisterUser ⟨⟨"alice1", ""⟩, ""⟩ Demo.aliceWorld).1 =
      (User.zero, some (.wrap "validating user registration request"
        (.wrap "calling validator number 0" (.validationError "password" "required")))) ∧
    ((Demo.module.UserRegistrator.RegisterUser ⟨⟨"alice1", ""⟩, ""⟩
        Demo.aliceWorld).1.2.bind errors.AsValidationError) ≠ some ("username", "unique") := by
  decide

/-- C7: when the request violates a format rule, the validator `Service.Provide` gives
to the registrator returns the format validator's error wrapped under "calling validator
number 0", keeping its field and tag, and returns the world as it was, so that no
`GetUserByUsername` call is made, whatever the store is; for a username of 2 characters
the error is field "username", tag "min=3". -/
theorem registrationValidator_format_error_before_lookup {σ : Type}
    (getter : UserGetterByUsername σ) (req : UserRegistrationRequest) (w : World σ)
    (e : GoError) (hformat : userRegistrationRequestValidator.Validate req = some e) :
    Service.registrationValidator getter req w =
      (some (.wrap "calling validator number 0" e), w) ∧
    (Service.registrationValidator getter req w).2.calls = w.calls ∧
    (∃ field tag, e = .validationError field tag ∧
      firstViolatedRule req = some (field, tag) ∧
      errors.AsValidationError (.wrap "calling validator number 0" e) = some (field, tag)) ∧
    (req.Username.length = 2 → e = .validationError "username" "min=3") := by
  have hres := Service.registrationValidator_format_error getter req w e hformat
  obtain ⟨field, tag, he, hrule⟩ := userRegistrationRequestValidator.Validate_some req e hformat
  refine ⟨hres, by rw [hres], ⟨field, tag, he, hrule, by subst he; rfl⟩, ?_⟩
  intro hlen
  have hu : req.Username ≠ "" := String.length_pos_of_ne_empty _ (by omega)
  have hrule2 : firstViolatedRule req = some ("username", "min=3") := by
    simp [firstViolatedRule, registrationRules, List.find?, hu, hlen]
  rw [hrule] at hrule2
  simp only [Option.some.injEq, Prod.mk.injEq] at hrule2
  rw [he, hrule2.1, hrule2.2]

/-- C7 on the scenario of the specification: the username "ab" on the table where
"alice1" is registered. -/
theorem registrationValidator_format_error_before_lookup_witness :
    Service.registrationValidator (NewUserRepository Demo.db).toGetter
        ⟨⟨"ab", "secret1"⟩, "secret1"⟩ Demo.aliceWorld =
      (some (.wrap "calling validator number 0" (.validationError "username" "min=3")),
        Demo.aliceWorld) :=
  (registrationValidator_format_error_before_lookup (NewUserRepository Demo.db).toGetter
    ⟨⟨"ab", "secret1"⟩, "secret1"⟩ Demo.aliceWorld (.validationError "username" "min=3")
    (by decide)).1

theorem userRepository.GetUserByUsername_error_zero {σ : Type} (db : DB σ) (username : String)
    (s s1 : σ) (user : User) (e : GoError)
    (h : (NewUserRepository db).GetUserByUsername username s = ((user, some e), s1)) :
    user = User.zero := by
  simp only [userRepository.GetUserByUsername, NewUserRepository] at h
  rcases hq : db.QueryRowScan username s with ⟨⟨u, err⟩, s2⟩
  rw [hq] at h
  cases err with
  | none => simp at h
  | some e1 =>
    simp only [Prod.mk.injEq] at h
    exact h.1.1.symm

/-- C8, amended: `usernameUniquenessValidator.Validate` makes one `GetUserByUsername`
call and then: an identity found with a positive identifier gives the `ValidationError`
field "username", tag "unique"; a NotFound error accompanied by an identity whose
identifier is not positive gives nil; any other error `e` gives `e` wrapped under
"getting user by username", which is not a `ValidationError` value and in which
`errors.As` finds a `ValidationError` only if it finds it in `e`. The MySQL repository
returns the zero identity with every error, so over it NotFound always gives nil. -/
theorem usernameUniquenessValidator_Validate_outcomes {σ : Type}
    (getter : UserGetterByUsername σ) (req : UserRegistrationRequest) (w : World σ)
    (user : User) (err : Option GoError) (s1 : σ)
    (hlookup : getter.GetUserByUsername req.Username w.state = ((user, err), s1)) :
    (err = none → 0 < user.ID →
      (NewUsernameUniquenessValidator getter).Validate req w =
        (some (.validationError "username" "unique"),
          w.record (.GetUserByUsername req.Username) s1)) ∧
    (∀ e, err = some e → errors.Is e .ErrUserNotFound = true → user.ID ≤ 0 →
      (NewUsernameUniquenessValidator getter).Validate req w =
        (none, w.record (.GetUserByUsername req.Username) s1)) ∧
    (∀ e, err = some e → errors.Is e .ErrUserNotFound = false →
      (NewUsernameUniquenessValidator getter).Validate req w =
        (some (.wrap "getting user by username" e),
          w.record (.GetUserByUsername req.Username) s1) ∧
      (∀ field tag, GoError.wrap "getting user by username" e ≠
        .validationError field tag) ∧
      errors.AsValidationError (.wrap "getting user by username" e) =
        errors.AsValidationError e ∧
      ∀ t, errors.Is (.wrap "getting user by username" e) t = errors.Is e t) ∧
    (∀ (db : DB σ) (e : GoError), getter = (NewUserRepository db).toGetter →
      err = some e → errors.Is e .ErrUserNotFound = true →
      (NewUsernameUniquenessValidator getter).Validate req w =
        (none, w.record (.GetUserByUsername req.Username) s1)) := by
  have happly := usernameUniquenessValidator.Validate_apply getter req w user err s1 hlookup
  refine ⟨?_, ?_, ?_, ?_⟩
  · intro herr hid
    subst herr
    have hpos : user.ID > 0 := hid
    simpa [hpos, NewValidationError] using happly
  · intro e herr hnf hid
    subst herr
    have hnotpos : ¬ user.ID > 0 := by omega
    simpa [hnf, hnotpos] using happly
  · intro e herr hnf
    subst herr
    refine ⟨by simpa [hnf] using happly, ?_, rfl, fun t => rfl⟩
    intro field tag h
    cases h
  · intro db e hgetter herr hnf
    subst herr
    subst hgetter
    have hzero := userRepository.GetUserByUsername_error_zero db req.Username w.state s1
      user e hlookup
    have hnotpos : ¬ user.ID > 0 := by rw [hzero]; decide
    simpa [hnf, hnotpos] using happly

/-- C8, amended, on concrete lookups over the in-memory table: "alice1" after she
registered is found, and "bob123" is reported not found. -/
theorem usernameUniquenessValidator_Validate_outcomes_witness :
    ((NewUsernameUniquenessValidator (NewUserRepository Demo.db).toGetter).Validate
        Demo.alice Demo.aliceWorld).1 = some (.validationError "username" "unique") ∧
    ((NewUsernameUniquenessValidator (NewUserRepository Demo.db).toGetter).Validate
        ⟨⟨"bob123", "secret1"⟩, "secret1"⟩ Demo.aliceWorld).1 = none :=
  ⟨congrArg Prod.fst ((usernameUniquenessValidator_Validate_outcomes
      (NewUserRepository Demo.db).toGetter Demo.alice Demo.aliceWorld Demo.aliceUser none
      ⟨[Demo.aliceUser], 1001⟩ (by decide)).1 rfl (by decide)),
    congrArg Prod.fst ((usernameUniquenessValidator_Validate_outcomes
      (NewUserRepository Demo.db).toGetter ⟨⟨"bob123", "secret1"⟩, "secret1"⟩ Demo.aliceWorld
      User.zero
      (some (.wrap "querying mysql users table"
        (.wrap2 ErrUserNotFound (.sentinel sqlErrNoRows))))
      ⟨[Demo.aliceUser], 1001⟩ (by decide)).2.1 _ rfl (by decide) (by decide))⟩

/-- C8 as stated fails: a lookup that reports `ErrUserNotFound` and hands back an
identity with the positive identifier 1 makes the validator fail with field "username",
tag "unique" instead of passing. -/
theorem usernameUniquenessValidator_Validate_counterexample :
    Demo.staleGetter.GetUserByUsername Demo.alice.Username Demo.emptyWorld.state =
      ((Demo.aliceUser, some ErrUserNotFound), Demo.emptyWorld.state) ∧
    errors.Is ErrUserNotFound .ErrUserNotFound = true ∧
    ((NewUsernameUniquenessValidator Demo.staleGetter).Validate Demo.alice
        Demo.emptyWorld).1 = some (.validationError "username" "unique") ∧
    ((NewUsernameUniquenessValidator Demo.staleGetter).Validate Demo.alice
        Demo.emptyWorld).1 ≠ none := by
  decide

/-- C9: when the registrator's validator returns an error, `RegisterUser` returns the
zero identity and that error wrapped under "validating user registration request";
`errors.Is` and `errors.As` see through the wrapping, so a `ValidationError` keeps its
field and tag; the world returned is the one the validator left (no `Hash`, `Now` or
`StoreUser` call is recorded and the collaborator state is untouched), and the outcome
is the same whatever timer, hasher and store the registrator holds. -/
theorem RegisterUser_validation_failure_has_no_effect {σ : Type} (ur : userRegistrator σ)
    (req : UserRegistrationRequest) (w w1 : World σ) (err : GoError)
    (hinvalid : ur.validator req w = (some err, w1)) :
    ur.RegisterUser req w =
      ((User.zero, some (.wrap "validating user registration request" err)), w1) ∧
    (∀ t, errors.Is (.wrap "validating user registration request" err) t = errors.Is err t) ∧
    errors.AsValidationError (.wrap "validating user registration request" err) =
      errors.AsValidationError err ∧
    (∀ field tag, err = .validationError field tag →
      errors.AsValidationError (.wrap "validating user registration request" err) =
        some (field, tag)) ∧
    (ur.RegisterUser req w).2.calls = w1.calls ∧
    (ur.RegisterUser req w).2.state = w1.state ∧
    (∀ (timer : Timer σ) (hasher : Hasher σ) (storer : UserStorer σ),
      (NewUserRegistrator ur.validator timer hasher storer).RegisterUser req w =
        ur.RegisterUser req w) := by
  have hres : ur.RegisterUser req w =
      ((User.zero, some (.wrap "validating user registration request" err)), w1) := by
    simp [userRegistrator.RegisterUser, hinvalid]
  refine ⟨hres, fun t => rfl, rfl, ?_, by rw [hres], by rw [hres], ?_⟩
  · intro field tag he
    subst he
    rfl
  · intro timer hasher storer
    rw [hres]
    simp [userRegistrator.RegisterUser, NewUserRegistrator, hinvalid]

/-- C9 on a concrete request: the username "ab" on the table where "alice1" is
registered; the world is returned as it was. -/
theorem RegisterUser_validation_failure_has_no_effect_witness :
    Demo.module.UserRegistrator.RegisterUser ⟨⟨"ab", "secret1"⟩, "secret1"⟩ Demo.aliceWorld =
      ((User.zero, some (.wrap "validating user registration request"
        (.wrap "calling validator number 0" (.validationError "username" "min=3")))),
        Demo.aliceWorld) :=
  (RegisterUser_validation_failure_has_no_effect Demo.module.UserRegistrator
    ⟨⟨"ab", "secret1"⟩, "secret1"⟩ Demo.aliceWorld Demo.aliceWorld
    (.wrap "calling validator number 0" (.validationError "username" "min=3")) rfl).1

theorem userRepository.commit_ok {σ : Type} (db : DB σ) (user stored : User) (s s1 : σ)
    (h : (NewUserRepository db).commit user s = ((stored, none), s1)) : stored = user := by
  simp only [userRepository.commit, NewUserRepository] at h
  rcases hc : db.Commit s with ⟨err, s2⟩
  rw [hc] at h
  cases err with
  | some e => simp at h
  | none =>
    simp only [Prod.mk.injEq] at h
    exact h.1.1.symm

theorem userRepository.StoreUser_insert_ok {σ : Type} (db : DB σ) (user stored : User)
    (s s1 : σ) (hnew : user.ID ≤ 0)
    (h : (NewUserRepository db).StoreUser user s = ((stored, none), s1)) :
    stored = { user with ID := stored.ID } ∧
      ∃ sx sy, db.LastInsertId sx = ((stored.ID, none), sy) := by
  have hnotpos : ¬ user.ID > 0 := by omega
  simp only [userRepository.StoreUser, hnotpos, if_false] at h
  rcases hb : (NewUserRepository db).db.BeginTx s with ⟨err, s2⟩
  rw [hb] at h
  cases err with
  | some e => simp at h
  | none =>
    simp only at h
    rcases hp : (NewUserRepository db).db.PrepareContext SqlQuery.insertUser s2 with ⟨err, s3⟩
    rw [hp] at h
    cases err with
    | some e => simp at h
    | none =>
      simp only at h
      rcases he : (NewUserRepository db).db.ExecContext SqlQuery.insertUser
        [SqlArg.text user.Username, .text user.Password, .time user.CreatedAt,
          .time user.UpdatedAt] s3 with ⟨err, s4⟩
      rw [he] at h
      cases err with
      | some e => simp at h
      | none =>
        simp only [hnew, if_true] at h
        rcases hl : (NewUserRepository db).db.LastInsertId s4 with ⟨⟨id, err⟩, s5⟩
        rw [hl] at h
        cases err with
        | some e => simp at h
        | none =>
          simp only at h
          have hst := userRepository.commit_ok db _ stored s5 s1 h
          subst hst
          exact ⟨rfl, s4, s5, hl⟩

/-- C10: after a validation that passes, with the MySQL repository as the store: when
hashing and storing succeed, `RegisterUser` returns the identity the store left behind
the pointer, which has the request's username, the hasher's output as password, the one
instant read from the timer as both timestamps, and as identifier the value
`LastInsertId` gave; when hashing fails it returns the zero identity and neither the
timer nor `StoreUser` is called; when storing fails it returns the zero identity. -/
theorem RegisterUser_result_after_validation {σ : Type}
    (validator : Validator σ UserRegistrationRequest) (timer : Timer σ) (hasher : Hasher σ)
    (db : DB σ) (req : UserRegistrationRequest) (w w1 : World σ) (hashed : String)
    (hashErr storeErr : Option GoError) (now : Time) (stored : User) (s2 s3 s4 : σ)
    (hvalid : validator req w = (none, w1))
    (hhash : hasher.Hash req.Password w1.state = ((hashed, hashErr), s2))
    (hnow : timer.Now s2 = (now, s3))
    (hstore : (NewUserRepository db).toStorer.StoreUser ⟨0, req.Username, hashed, now, now⟩ s3 =
      ((stored, storeErr), s4)) :
    (hashErr = none → storeErr = none →
      (NewUserRegistrator validator timer hasher (NewUserRepository db).toStorer).RegisterUser
          req w =
        ((stored, none), ⟨s4, w1.calls ++ [.Hash req.Password, .Now,
          .StoreUser ⟨0, req.Username, hashed, now, now⟩]⟩) ∧
      stored = ⟨stored.ID, req.Username, hashed, now, now⟩ ∧
      ∃ sx sy, db.LastInsertId sx = ((stored.ID, none), sy)) ∧
    (∀ e, hashErr = some e →
      (NewUserRegistrator validator timer hasher (NewUserRepository db).toStorer).RegisterUser
          req w =
        ((User.zero, some (.wrap "hashing plain user password" e)),
          ⟨s2, w1.calls ++ [.Hash req.Password]⟩)) ∧
    (∀ e, hashErr = none → storeErr = some e →
      (NewUserRegistrator validator timer hasher (NewUserRepository db).toStorer).RegisterUser
          req w =
        ((User.zero, some (.wrap "storing user" e)), ⟨s4, w1.calls ++ [.Hash req.Password,
          .Now, .StoreUser ⟨0, req.Username, hashed, now, now⟩]⟩)) := by
  refine ⟨?_, ?_, ?_⟩
  · intro hh hs
    subst hh
    subst hs
    have hins := userRepository.StoreUser_insert_ok db ⟨0, req.Username, hashed, now, now⟩
      stored s3 s4 (le_refl (0 : Int)) hstore
    refine ⟨?_, hins.1, hins.2⟩
    simp [NewUserRegistrator, userRegistrator.RegisterUser, hvalid, hhash, World.record, hnow,
      hstore]
  · intro e hh
    subst hh
    simp [NewUserRegistrator, userRegistrator.RegisterUser, hvalid, hhash, World.record]
  · intro e hh hs
    subst hh
    subst hs
    simp [NewUserRegistrator, userRegistrator.RegisterUser, hvalid, hhash, World.record, hnow,
      hstore]

/-- C10 on the scenario of the specification: "alice1" registers on the empty in-memory
table with the clock at 1000. -/
theorem RegisterUser_result_after_validation_witness :
    Demo.module.UserRegistrator.RegisterUser Demo.alice Demo.emptyWorld =
      ((Demo.aliceUser, none), ⟨⟨[Demo.aliceUser], 1001⟩,
        [.GetUserByUsername "alice1", .Hash "secret1", .Now,
          .StoreUser ⟨0, "alice1", "$2a$10$secret1", ⟨1000⟩, ⟨1000⟩⟩]⟩) ∧
    Demo.aliceUser = ⟨Demo.aliceUser.ID, "alice1", "$2a$10$secret1", ⟨1000⟩, ⟨1000⟩⟩ :=
  have h := (RegisterUser_result_after_validation
    (Service.registrationValidator (NewUserRepository Demo.db).toGetter)
    (NewTimer Demo.timeNow) (NewBcryptHasher Demo.bcrypt 10).toHasher Demo.db Demo.alice
    Demo.emptyWorld ⟨⟨[], 1000⟩, [.GetUserByUsername "alice1"]⟩ "$2a$10$secret1" none none
    ⟨1000⟩ Demo.aliceUser ⟨[], 1000⟩ ⟨[], 1001⟩ ⟨[Demo.aliceUser], 1001⟩
    rfl (by decide) (by decide) (by decide)).1 rfl rfl
  ⟨h.1, h.2.1⟩

theorem userRegistrator.RegisterUser_ok_inv {σ : Type} (ur : userRegistrator σ)
    (req : UserRegistrationRequest) (w w' : World σ) (user : User)
    (h : ur.RegisterUser req w = ((user, none), w')) :
    ∃ (w1 : World σ) (hashed : String) (s2 : σ) (now : Time) (s3 s4 : σ),
      ur.validator req w = (none, w1) ∧
      ur.hasher.Hash req.Password w1.state = ((hashed, none), s2) ∧
      ur.timer.Now s2 = (now, s3) ∧
      ur.userStorer.StoreUser ⟨0, req.Username, hashed, now, now⟩ s3 = ((user, none), s4) := by
  rcases hv : ur.validator req w with ⟨verr, w1⟩
  rcases hh : ur.hasher.Hash req.Password w1.state with ⟨⟨hashed, herr⟩, s2⟩
  rcases hn : ur.timer.Now s2 with ⟨now, s3⟩
  rcases hs : ur.userStorer.StoreUser ⟨0, req.Username, hashed, now, now⟩ s3 with
    ⟨⟨stored, serr⟩, s4⟩
  cases verr with
  | some e => simp [userRegistrator.RegisterUser, hv] at h
  | none =>
    cases herr with
    | some e => simp [userRegistrator.RegisterUser, hv, hh] at h
    | none =>
      cases serr with
      | some e => simp [userRegistrator.RegisterUser, hv, hh, World.record, hn, hs] at h
      | none =>
        simp [userRegistrator.RegisterUser, hv, hh, World.record, hn, hs] at h
        obtain ⟨hu, -⟩ := h
        subst hu
        exact ⟨w1, hashed, s2, now, s3, s4, rfl, hh, hn, hs⟩

theorem bcryptHasher.Hash_ok_inv {σ : Type} (h : bcryptHasher σ) (plain hashed : String)
    (s s1 : σ) (hok : h.Hash plain s = ((hashed, none), s1)) :
    h.bcrypt.GenerateFromPassword plain h.cost s = ((hashed, none), s1) := by
  simp only [bcryptHasher.Hash] at hok
  rcases hg : h.bcrypt.GenerateFromPassword plain h.cost s with ⟨⟨x, err⟩, s2⟩
  rw [hg] at hok
  cases err with
  | some e => simp at hok
  | none =>
    simp only [Prod.mk.injEq] at hok
    obtain ⟨⟨hx, -⟩, hs⟩ := hok
    rw [hx, hs]

theorem bcryptHasher.Compare_eq_none_iff {σ : Type} (h : bcryptHasher σ)
    (hashed plain : String) (s : σ) :
    (h.Compare hashed plain s).1 = none ↔
      (h.bcrypt.CompareHashAndPassword hashed plain s).1 = none := by
  simp only [bcryptHasher.Compare]
  rcases hc : h.bcrypt.CompareHashAndPassword hashed plain s with ⟨err, s1⟩
  cases err <;> simp
/-- C11: in the service `Service.Provide` builds, when `RegisterUser` succeeds the
password field of the returned identity is the very string
`bcrypt.GenerateFromPassword` returned for the submitted plaintext at cost 10, carried
unchanged through the store. Given the two properties of the `bcrypt` package for that
plaintext (a generated hash is not the plaintext itself; `CompareHashAndPassword`
accepts the plaintext against a hash generated from it), the field differs from the
plaintext and `Compare(field, plaintext)` returns nil. -/
theorem RegisterUser_password_is_hash_of_plaintext {σ : Type} (timeNow : σ → Time × σ)
    (bcrypt : Bcrypt σ) (db : DB σ) (req : UserRegistrationRequest) (w w' : World σ)
    (user : User)
    (hsuccess : (Service.Provide timeNow bcrypt db).UserRegistrator.RegisterUser req w =
      ((user, none), w'))
    (hdiffers : ∀ (s s1 : σ) (hashed : String),
      bcrypt.GenerateFromPassword req.Password 10 s = ((hashed, none), s1) →
        hashed ≠ req.Password)
    (haccepts : ∀ (s s1 s2 : σ) (hashed : String),
      bcrypt.GenerateFromPassword req.Password 10 s = ((hashed, none), s1) →
        (bcrypt.CompareHashAndPassword hashed req.Password s2).1 = none) :
    (∃ s s1, bcrypt.GenerateFromPassword req.Password 10 s = ((user.Password, none), s1)) ∧
    user.Password ≠ req.Password ∧
    ∀ s2, ((Service.Provide timeNow bcrypt db).UserAuthenticator.comparator.Compare
      user.Password req.Password s2).1 = none := by
  obtain ⟨w1, hashed, s2, now, s3, s4, -, hh, -, hs⟩ :=
    userRegistrator.RegisterUser_ok_inv _ req w w' user hsuccess
  have hgen := bcryptHasher.Hash_ok_inv (NewBcryptHasher bcrypt 10) req.Password hashed
    w1.state s2 hh
  have hins := userRepository.StoreUser_insert_ok db ⟨0, req.Username, hashed, now, now⟩
    user s3 s4 (le_refl (0 : Int)) hs
  have hpw : user.Password = hashed := by rw [hins.1]
  rw [hpw]
  refine ⟨⟨w1.state, s2, hgen⟩, hdiffers _ _ _ hgen, fun s5 => ?_⟩
  exact (bcryptHasher.Compare_eq_none_iff (NewBcryptHasher bcrypt 10) hashed req.Password
    s5).2 (haccepts _ _ s5 _ hgen)

/-- C11 on the scenario of the specification: the identity stored for "alice1" holds
"$2a$10$secret1", not "secret1", and the comparison with "secret1" succeeds. -/
theorem RegisterUser_password_is_hash_of_plaintext_witness :
    Demo.aliceUser.Password ≠ Demo.alice.Password ∧
    ((NewBcryptHasher Demo.bcrypt 10).Compare Demo.aliceUser.Password Demo.alice.Password
      Demo.aliceWorld.state).1 = none :=
  have h := RegisterUser_password_is_hash_of_plaintext Demo.timeNow Demo.bcrypt Demo.db
    Demo.alice Demo.emptyWorld Demo.aliceWorld Demo.aliceUser rfl
    (fun s s1 hashed hg => by
      have hh : hashed = "$2a$10$secret1" := by
        simp only [Demo.bcrypt, Demo.alice, Prod.mk.injEq] at hg
        exact hg.1.1.symm
      rw [hh]
      decide)
    (fun s s1 s2 hashed hg => by
      have hh : hashed = "$2a$10$secret1" := by
        simp only [Demo.bcrypt, Demo.alice, Prod.mk.injEq] at hg
        exact hg.1.1.symm
      rw [hh]
      rfl)
  ⟨h.2.1, h.2.2 Demo.aliceWorld.state⟩

/-- C13: `bcryptHasher.Compare` returns nil exactly when
`bcrypt.CompareHashAndPassword` returns nil. When the package fails with `e` (an error
of its own, which carries no `ErrHashMismatched`), `Compare` returns an error for which
`errors.Is(err, ErrHashMismatched)` holds exactly when
`errors.Is(e, bcrypt.ErrMismatchedHashAndPassword)` holds: in that case it is
`ErrHashMismatched` wrapped under "comparing bcrypt hash with plain", and otherwise it
is `e` itself wrapped under the same message. -/
theorem bcryptHasher_Compare_error_classes {σ : Type} (h : bcryptHasher σ)
    (hashed plain : String) (s : σ)
    (hown : ∀ e, (h.bcrypt.CompareHashAndPassword hashed plain s).1 = some e →
      errors.Is e .ErrHashMismatched = false) :
    ((h.Compare hashed plain s).1 = none ↔
      (h.bcrypt.CompareHashAndPassword hashed plain s).1 = none) ∧
    (∀ e, (h.bcrypt.CompareHashAndPassword hashed plain s).1 = some e →
      ∃ e1, (h.Compare hashed plain s).1 = some e1 ∧
        (errors.Is e1 .ErrHashMismatched = true ↔
          errors.Is e bcryptErrMismatchedHashAndPassword = true) ∧
        (errors.Is e bcryptErrMismatchedHashAndPassword = true →
          e1 = .wrap "comparing bcrypt hash with plain" ErrHashMismatched) ∧
        (errors.Is e bcryptErrMismatchedHashAndPassword = false →
          e1 = .wrap "comparing bcrypt hash with plain" e ∧
          errors.Is e1 .ErrHashMismatched = false)) := by
  refine ⟨bcryptHasher.Compare_eq_none_iff h hashed plain s, ?_⟩
  intro e he
  have hnot := hown e he
  rcases hc : h.bcrypt.CompareHashAndPassword hashed plain s with ⟨err, s1⟩
  rw [hc] at he
  simp only at he
  subst he
  by_cases hm : errors.Is e bcryptErrMismatchedHashAndPassword = true
  · refine ⟨.wrap "comparing bcrypt hash with plain" ErrHashMismatched, ?_, ?_, ?_, ?_⟩
    · simp [bcryptHasher.Compare, hc, hm]
    · simp [errors.Is, ErrHashMismatched, hm]
    · intro _; rfl
    · intro hf; rw [hm] at hf; cases hf
  · have hm' : errors.Is e bcryptErrMismatchedHashAndPassword = false := by
      simpa using hm
    refine ⟨.wrap "comparing bcrypt hash with plain" e, ?_, ?_, ?_, ?_⟩
    · simp [bcryptHasher.Compare, hc, hm']
    · simp [errors.Is, hnot, hm']
    · intro ht; rw [hm'] at ht; cases ht
    · intro _; exact ⟨rfl, hnot⟩

/-- C13 on concrete comparisons: a wrong password against a well-formed hash, and a
hash that is too short. -/
theorem bcryptHasher_Compare_error_classes_witness :
    ((NewBcryptHasher Demo.strictBcrypt 10).Compare
        "$2a$10$N9qo8uLOickgx2ZMRZoMyeIjZAgcfl7p92ldGxad68LJZdL17lhWy" "secret1"
        Demo.emptyWorld.state).1 =
      some (.wrap "comparing bcrypt hash with plain" ErrHashMismatched) ∧
    ((NewBcryptHasher Demo.strictBcrypt 10).Compare "short" "secret1"
        Demo.emptyWorld.state).1 =
      some (.wrap "comparing bcrypt hash with plain" (.sentinel
        (.foreign "crypto/bcrypt: hashedSecret too short to be a bcrypted password"))) :=
  ⟨match (bcryptHasher_Compare_error_classes (NewBcryptHasher Demo.strictBcrypt 10)
      "$2a$10$N9qo8uLOickgx2ZMRZoMyeIjZAgcfl7p92ldGxad68LJZdL17lhWy" "secret1"
      Demo.emptyWorld.state (by decide)).2 _ rfl with
    | ⟨_, h1, _, h2, _⟩ => h1.trans (congrArg some (h2 (by decide))),
    match (bcryptHasher_Compare_error_classes (NewBcryptHasher Demo.strictBcrypt 10)
      "short" "secret1" Demo.emptyWorld.state (by decide)).2 _ rfl with
    | ⟨_, h1, _, _, h2⟩ => h1.trans (congrArg some (h2 (by decide)).1)⟩

theorem userAuthenticationRequestValidator.Validate_error_form (req : UserAuthenticationRequest)
    (e : GoError) (h : userAuthenticationRequestValidator.Validate req = some e) :
    ∃ field tag, e = .validationError field tag := by
  simp only [userAuthenticationRequestValidator.Validate, VarCtx,
    userAuthenticationRequestValidator.EvaluateErrorAs, NewValidationError] at h
  by_cases h1 : Tag.required.holds req.Username = true
  · by_cases h2 : Tag.required.holds req.Password = true
    · simp [h1, h2] at h
    · simp [h1, h2, errors.AsValidationErrors] at h
      exact ⟨_, _, h.symm⟩
  · simp [h1, errors.AsValidationErrors] at h
    exact ⟨_, _, h.symm⟩

theorem userRepository.GetUserByUsername_error_class {σ : Type} (db : DB σ)
    (username : String) (s s1 : σ) (user : User) (cause : GoError) (t : Sentinel)
    (ht : t ≠ .ErrUserNotFound)
    (h : (NewUserRepository db).GetUserByUsername username s = ((user, some cause), s1))
    (hdriver : ∀ e, (db.QueryRowScan username s).1.2 = some e → errors.Is e t = false) :
    errors.Is cause t = false := by
  simp only [userRepository.GetUserByUsername, NewUserRepository] at h
  rcases hq : db.QueryRowScan username s with ⟨⟨u, err⟩, s2⟩
  rw [hq] at h hdriver
  cases err with
  | none => simp at h
  | some e =>
    have he := hdriver e rfl
    simp only [Prod.mk.injEq, Option.some.injEq] at h
    obtain ⟨⟨-, hc⟩, -⟩ := h
    subst hc
    by_cases hrows : errors.Is e sqlErrNoRows = true
    · simp [hrows, errors.Is, ErrUserNotFound, he, Ne.symm ht]
    · simp [hrows, errors.Is, he]

theorem bcryptHasher.Compare_error_class {σ : Type} (h : bcryptHasher σ)
    (hashed plain : String) (s : σ) (cause : GoError) (t : Sentinel)
    (ht : t ≠ .ErrHashMismatched)
    (hc : (h.Compare hashed plain s).1 = some cause)
    (hlib : ∀ e, (h.bcrypt.CompareHashAndPassword hashed plain s).1 = some e →
      errors.Is e t = false) :
    errors.Is cause t = false := by
  simp only [bcryptHasher.Compare] at hc
  rcases hl : h.bcrypt.CompareHashAndPassword hashed plain s with ⟨err, s1⟩
  rw [hl] at hc hlib
  cases err with
  | none => simp at hc
  | some e =>
    have he := hlib e rfl
    simp only [Option.some.injEq] at hc
    subst hc
    by_cases hm : errors.Is e bcryptErrMismatchedHashAndPassword = true
    · simp [hm, errors.Is, ErrHashMismatched, Ne.symm ht]
    · simp [hm, errors.Is, he]
/-- C12: in the service `Service.Provide` builds, over a database driver and a `bcrypt`
package whose own errors carry no `ErrUnauthenticated`: a request that fails validation,
a lookup that fails with an error for which `errors.Is(err, ErrUserNotFound)` is false,
and a comparison that fails with an error for which `errors.Is(err, ErrHashMismatched)`
is false each make `AuthenticateUser` return the zero identity and the cause wrapped
under the message of the failing step, and `errors.Is` of that error with
`ErrUnauthenticated` is false. -/
theorem AuthenticateUser_other_failures_are_not_unauthenticated {σ : Type}
    (timeNow : σ → Time × σ) (bcrypt : Bcrypt σ) (db : DB σ)
    (req : UserAuthenticationRequest) (w : World σ)
    (hdriver : ∀ e, (db.QueryRowScan req.Username w.state).1.2 = some e →
      errors.Is e .ErrUnauthenticated = false)
    (hbcrypt : ∀ hashed s e, (bcrypt.CompareHashAndPassword hashed req.Password s).1 = some e →
      errors.Is e .ErrUnauthenticated = false) :
    (∀ err, userAuthenticationRequestValidator.Validate req = some err →
      (Service.Provide timeNow bcrypt db).UserAuthenticator.AuthenticateUser req w =
        ((User.zero, some (.wrap "validating user authentication request" err)), w) ∧
      errors.Is (.wrap "validating user authentication request" err) .ErrUnauthenticated =
        false) ∧
    (∀ user cause s2, userAuthenticationRequestValidator.Validate req = none →
      (Service.Provide timeNow bcrypt db).UserAuthenticator.userGetterByUsername.GetUserByUsername
          req.Username w.state = ((user, some cause), s2) →
      errors.Is cause .ErrUserNotFound = false →
      (Service.Provide timeNow bcrypt db).UserAuthenticator.AuthenticateUser req w =
        ((User.zero, some (.wrap "getting user by username" cause)),
          ⟨s2, w.calls ++ [.GetUserByUsername req.Username]⟩) ∧
      errors.Is (.wrap "getting user by username" cause) .ErrUnauthenticated = false) ∧
    (∀ user s2 cause s3, userAuthenticationRequestValidator.Validate req = none →
      (Service.Provide timeNow bcrypt db).UserAuthenticator.userGetterByUsername.GetUserByUsername
          req.Username w.state = ((user, none), s2) →
      (Service.Provide timeNow bcrypt db).UserAuthenticator.comparator.Compare user.Password
          req.Password s2 = (some cause, s3) →
      errors.Is cause .ErrHashMismatched = false →
      (Service.Provide timeNow bcrypt db).UserAuthenticator.AuthenticateUser req w =
        ((User.zero, some (.wrap "comparing hashed with plain user password" cause)),
          ⟨s3, w.calls ++ [.GetUserByUsername req.Username,
            .Compare user.Password req.Password]⟩) ∧
      errors.Is (.wrap "comparing hashed with plain user password" cause)
        .ErrUnauthenticated = false) := by
  refine ⟨?_, ?_, ?_⟩
  · intro err herr
    obtain ⟨field, tag, he⟩ := userAuthenticationRequestValidator.Validate_error_form req err herr
    subst he
    refine ⟨?_, rfl⟩
    simp [Service.Provide, Service.wire, NewUserAuthenticator,
      userAuthenticator.AuthenticateUser, NewUserAuthenticationRequestValidator, herr]
  · intro user cause s2 hvalid hlookup hnf
    have hclass := userRepository.GetUserByUsername_error_class db req.Username w.state s2
      user cause .ErrUnauthenticated (by decide) hlookup hdriver
    refine ⟨?_, hclass⟩
    have hlookup' : (NewUserRepository db).toGetter.GetUserByUsername req.Username w.state =
        ((user, some cause), s2) := hlookup
    simp [Service.Provide, Service.wire, NewUserAuthenticator,
      userAuthenticator.AuthenticateUser, NewUserAuthenticationRequestValidator, hvalid,
      hlookup', errors.Is, hnf, World.record]
  · intro user s2 cause s3 hvalid hlookup hcompare hnm
    have hcompare' : (NewBcryptHasher bcrypt 10).Compare user.Password req.Password s2 =
        (some cause, s3) := hcompare
    have hclass := bcryptHasher.Compare_error_class (NewBcryptHasher bcrypt 10) user.Password
      req.Password s2 cause .ErrUnauthenticated (by decide) (by rw [hcompare'])
      (fun e he => hbcrypt user.Password s2 e he)
    refine ⟨?_, hclass⟩
    have hlookup' : (NewUserRepository db).toGetter.GetUserByUsername req.Username w.state =
        ((user, none), s2) := hlookup
    have hcompare'' : (NewBcryptHasher bcrypt 10).toComparator.Compare user.Password
        req.Password s2 = (some cause, s3) := hcompare
    simp [Service.Provide, Service.wire, NewUserAuthenticator,
      userAuthenticator.AuthenticateUser, NewUserAuthenticationRequestValidator, hvalid,
      hlookup', hcompare'', errors.Is, hnm, World.record]

/-- C12 on concrete requests: a login with an empty password, a login while the
database is down, and a login against a stored hash that is malformed. -/
theorem AuthenticateUser_other_failures_are_not_unauthenticated_witness :
    ((Service.Provide Demo.timeNow Demo.bcrypt Demo.db).UserAuthenticator.AuthenticateUser
        ⟨"alice1", ""⟩ Demo.aliceWorld).1 =
      (User.zero, some (.wrap "validating user authentication request"
        (.validationError "password" "required"))) ∧
    ((Service.Provide Demo.timeNow Demo.bcrypt Demo.downDb).UserAuthenticator.AuthenticateUser
        ⟨"alice1", "secret1"⟩ Demo.aliceWorld).1 =
      (User.zero, some (.wrap "getting user by username" (.wrap "querying mysql users table"
        (.sentinel (.foreign "dial tcp: connection refused"))))) ∧
    ((Service.Provide Demo.timeNow Demo.strictBcrypt Demo.db).UserAuthenticator.AuthenticateUser
        ⟨"alice1", "secret1"⟩ Demo.aliceWorld).1 =
      (User.zero, some (.wrap "comparing hashed with plain user password"
        (.wrap "comparing bcrypt hash with plain" (.sentinel
          (.foreign "crypto/bcrypt: hashedSecret too short to be a bcrypted password"))))) :=
  ⟨congrArg Prod.fst ((AuthenticateUser_other_failures_are_not_unauthenticated Demo.timeNow
      Demo.bcrypt Demo.db ⟨"alice1", ""⟩ Demo.aliceWorld (by decide)
      (fun hashed s e he => by
        simp only [Demo.bcrypt] at he
        split at he
        · cases he
        · simp only [Option.some.injEq] at he
          subst he
          rfl)).1 _ (by decide)).1,
    congrArg Prod.fst ((AuthenticateUser_other_failures_are_not_unauthenticated Demo.timeNow
      Demo.bcrypt Demo.downDb ⟨"alice1", "secret1"⟩ Demo.aliceWorld (by decide)
      (fun hashed s e he => by
        simp only [Demo.bcrypt] at he
        split at he
        · cases he
        · simp only [Option.some.injEq] at he
          subst he
          rfl)).2.1 User.zero _ Demo.aliceWorld.state (by decide) (by decide) (by decide)).1,
    congrArg Prod.fst ((AuthenticateUser_other_failures_are_not_unauthenticated Demo.timeNow
      Demo.strictBcrypt Demo.db ⟨"alice1", "secret1"⟩ Demo.aliceWorld (by decide)
      (fun hashed s e he => by
        simp only [Demo.strictBcrypt, Demo.bcrypt] at he
        split at he
        · simp only [Option.some.injEq] at he
          subst he
          rfl
        · split at he
          · cases he
          · simp only [Option.some.injEq] at he
            subst he
            rfl)).2.2 Demo.aliceUser Demo.aliceWorld.state _ Demo.aliceWorld.state
        (by decide) (by decide) (by decide) (by decide)).1⟩

theorem strconv.digitValue_digitByte (d : Nat) (h : d < 10) :
    strconv.digitValue (strconv.digitByte d) = some d := by
  interval_cases d <;> decide

theorem strconv.digitByte_not_sign (d : Nat) (h : d < 10) :
    strconv.digitByte d ≠ '+' ∧ strconv.digitByte d ≠ '-' := by
  interval_cases d <;> decide

theorem strconv.parseUintLoop_digit (d n : Nat) (cs : List Char) (hd : d < 10)
    (hn : n * 10 + d < 2 ^ 64) :
    strconv.parseUintLoop 10 (2 ^ 64 - 1) (strconv.digitByte d :: cs) n =
      strconv.parseUintLoop 10 (2 ^ 64 - 1) cs (n * 10 + d) := by
  have hmod : (n * 10 + d) % 2 ^ 64 = n * 10 + d := Nat.mod_eq_of_lt hn
  have h1 : ¬ d ≥ 10 := by omega
  have h2 : ¬ n ≥ (2 ^ 64 - 1) / 10 + 1 := by
    norm_num at hn ⊢
    omega
  have h3 : ¬ (n * 10 + d < n * 10 ∨ n * 10 + d > 2 ^ 64 - 1) := by
    norm_num at hn ⊢
    omega
  simp only [strconv.parseUintLoop, strconv.digitValue_digitByte d hd, hmod]
  rw [if_neg h1, if_neg h2, if_neg h3]

theorem strconv.parseUintLoop_formatBits (room : Nat) :
    ∀ (u : Nat) (acc : List Char), u < 10 ^ room → u < 2 ^ 64 →
      strconv.parseUintLoop 10 (2 ^ 64 - 1) (strconv.formatBits room u 10 acc) 0 =
        strconv.parseUintLoop 10 (2 ^ 64 - 1) acc u := by
  induction room with
  | zero =>
    intro u acc hu _
    have : u = 0 := by simpa using hu
    subst this
    rfl
  | succ room ih =>
    intro u acc hu h64
    by_cases hge : u ≥ 10
    · have hdiv : u / 10 < 10 ^ room := by
        rw [pow_succ] at hu
        omega
      have hrec := ih (u / 10) (strconv.digitByte (u % 10) :: acc) hdiv (by omega)
      have hstep := strconv.parseUintLoop_digit (u % 10) (u / 10) acc (by omega) (by omega)
      have hval : u / 10 * 10 + u % 10 = u := by omega
      rw [hval] at hstep
      simp only [strconv.formatBits, hge, if_true]
      rw [hrec, hstep]
    · have hstep := strconv.parseUintLoop_digit u 0 acc (by omega) (by omega)
      simp only [Nat.zero_mul, Nat.zero_add] at hstep
      simp only [strconv.formatBits, hge, if_false]
      exact hstep

theorem strconv.formatBits_head (room : Nat) :
    ∀ (u : Nat) (acc : List Char),
      ∃ d rest, d < 10 ∧ strconv.formatBits (room + 1) u 10 acc = strconv.digitByte d :: rest := by
  induction room with
  | zero =>
    intro u acc
    by_cases hge : u ≥ 10
    · exact ⟨u % 10, acc, by omega, by simp [strconv.formatBits, hge]⟩
    · exact ⟨u, acc, by omega, by simp [strconv.formatBits, hge]⟩
  | succ room ih =>
    intro u acc
    by_cases hge : u ≥ 10
    · obtain ⟨d, rest, hd, hfmt⟩ := ih (u / 10) (strconv.digitByte (u % 10) :: acc)
      refine ⟨d, rest, hd, ?_⟩
      rw [← hfmt]
      conv_lhs => rw [strconv.formatBits]
      simp only [hge, if_true]
    · exact ⟨u, acc, by omega, by
        conv_lhs => rw [strconv.formatBits]
        simp only [hge, if_false]⟩

theorem strconv.ParseUint_formatBits (u : Nat) (h64 : u < 2 ^ 64) :
    strconv.ParseUint (strconv.formatBits 65 u 10 []) 10 64 = (u, none) := by
  obtain ⟨d, rest, -, hfmt⟩ := strconv.formatBits_head 64 u []
  have hne : strconv.formatBits 65 u 10 [] ≠ [] := by rw [hfmt]; simp
  have hloop := strconv.parseUintLoop_formatBits 65 u [] (by norm_num at h64 ⊢; omega) h64
  simp only [strconv.ParseUint, hne, if_false]
  rw [hloop]
  rfl

theorem strconv.parseIntFinish_neg (s : String) (un : Nat) (h : un ≤ 2 ^ 63) :
    strconv.parseIntFinish s 64 true (un, none) = (-(un : Int), none) := by
  have h2 : un ≤ 9223372036854775808 := by
    norm_num at h
    exact h
  simp [strconv.parseIntFinish, h2]

theorem strconv.parseIntFinish_pos (s : String) (un : Nat) (h : un < 2 ^ 63) :
    strconv.parseIntFinish s 64 false (un, none) = ((un : Int), none) := by
  have h1 : un < 9223372036854775808 := by
    norm_num at h
    exact h
  simp [strconv.parseIntFinish, h1]

theorem strconv.ParseInt_cons (c : Char) (rest : List Char) :
    strconv.ParseInt ⟨c :: rest⟩ 10 64 =
      if c = '+' then strconv.parseIntFinish ⟨c :: rest⟩ 64 false (strconv.ParseUint rest 10 64)
      else if c = '-' then
        strconv.parseIntFinish ⟨c :: rest⟩ 64 true (strconv.ParseUint rest 10 64)
      else strconv.parseIntFinish ⟨c :: rest⟩ 64 false (strconv.ParseUint (c :: rest) 10 64) :=
  rfl

theorem strconv.ParseInt_FormatInt (n : Int) (hlo : -(2 ^ 63 : Int) ≤ n)
    (hhi : n < (2 ^ 63 : Int)) :
    strconv.ParseInt (strconv.FormatInt n 10) 10 64 = (n, none) := by
  have habs : n.natAbs < 2 ^ 64 := by
    norm_num at hlo hhi ⊢
    omega
  have hparse := strconv.ParseUint_formatBits n.natAbs habs
  by_cases hneg : n < 0
  · have hle : n.natAbs ≤ 2 ^ 63 := by
      norm_num at hlo ⊢
      omega
    have hback : -(n.natAbs : Int) = n := by omega
    have hfi : strconv.FormatInt n 10 = ⟨'-' :: strconv.formatBits 65 n.natAbs 10 []⟩ := by
      simp only [strconv.FormatInt]
      rw [if_pos hneg]
    rw [hfi, strconv.ParseInt_cons, if_neg (by decide), if_pos rfl, hparse,
      strconv.parseIntFinish_neg _ _ hle, hback]
  · obtain ⟨d, rest, hd, hfmt⟩ := strconv.formatBits_head 64 n.natAbs []
    have hsign := strconv.digitByte_not_sign d hd
    have hlt : n.natAbs < 2 ^ 63 := by
      norm_num at hhi ⊢
      omega
    have hback : (n.natAbs : Int) = n := by omega
    have hfmt' : strconv.formatBits 65 n.natAbs 10 [] = strconv.digitByte d :: rest := hfmt
    have hfi : strconv.FormatInt n 10 = ⟨strconv.digitByte d :: rest⟩ := by
      simp only [strconv.FormatInt]
      rw [if_neg hneg, hfmt']
    rw [hfmt'] at hparse
    rw [hfi, strconv.ParseInt_cons, if_neg hsign.1, if_neg hsign.2, hparse,
      strconv.parseIntFinish_pos _ _ hlt, hback]

theorem strings.Contains_bearer (token : String) :
    strings.Contains ("Bearer " ++ token) "Bearer" = true := by
  have hdata : ("Bearer " ++ token).data = "Bearer".data ++ (' ' :: token.data) := by
    simp [String.data_append]
  simp only [strings.Contains, decide_eq_true_eq, hdata]
  exact ⟨[], ' ' :: token.data, by simp⟩

theorem strings.SplitN_bearer (token : String) :
    strings.SplitN ("Bearer " ++ token) = ["Bearer", token] := by
  have hdata : ("Bearer " ++ token).data =
      'B' :: 'e' :: 'a' :: 'r' :: 'e' :: 'r' :: ' ' :: token.data := by
    simp [String.data_append]
  have hspan : ("Bearer " ++ token).data.span (fun c => decide (c ≠ ' ')) =
      (['B', 'e', 'a', 'r', 'e', 'r'], ' ' :: token.data) := by
    rw [hdata]
    simp [List.span_eq_take_drop, List.takeWhile, List.dropWhile]
  simp only [strings.SplitN, hspan]

theorem JWTUserPresenter.Present_eq {σ : Type} (p : JWTUserPresenter σ) (user : User)
    (w : World σ) :
    p.Present user w =
      ((match p.jwt.SignedString (p.claims user (p.timer.Now w.state).1) p.secret with
        | (_, some err) => (none, some (.wrap "generating jwt token from user" err))
        | (accessToken, none) => (some ⟨200, accessToken, p.lifeTime.Seconds⟩, none)),
        w.record .Now (p.timer.Now w.state).2) := by
  simp only [JWTUserPresenter.Present]
  rcases hs : p.jwt.SignedString (p.claims user (p.timer.Now w.state).1) p.secret with
    ⟨tok, err⟩
  cases err <;> rfl

/-- C14, amended: `JWTUserPresenter.Present` makes no check of the identifier. For every
identity, an identifier that is zero or negative included, it reads the clock once and
signs claims whose audience is `strconv.FormatInt` of the identifier; when the signing
succeeds it answers 200 with the token, and it returns an error, and no token, exactly
when the signing fails. -/
theorem JWTUserPresenter_Present_checks_no_identifier {σ : Type} (p : JWTUserPresenter σ)
    (user : User) (w : World σ) :
    (p.claims user (p.timer.Now w.state).1).Audience = strconv.FormatInt user.ID 10 ∧
    (∀ accessToken,
      p.jwt.SignedString (p.claims user (p.timer.Now w.state).1) p.secret =
        (accessToken, none) →
      (p.Present user w).1 = (some ⟨200, accessToken, p.lifeTime.Seconds⟩, none)) ∧
    (∀ accessToken err,
      p.jwt.SignedString (p.claims user (p.timer.Now w.state).1) p.secret =
        (accessToken, some err) →
      (p.Present user w).1 = (none, some (.wrap "generating jwt token from user" err))) ∧
    ((p.Present user w).1.2 = none ↔
      (p.jwt.SignedString (p.claims user (p.timer.Now w.state).1) p.secret).2 = none) ∧
    (p.Present user w).2.calls = w.calls ++ [.Now] := by
  rw [JWTUserPresenter.Present_eq]
  refine ⟨rfl, ?_, ?_, ?_, rfl⟩
  · intro accessToken hs
    simp only [hs]
  · intro accessToken err hs
    simp only [hs]
  · rcases hs : p.jwt.SignedString (p.claims user (p.timer.Now w.state).1) p.secret with
      ⟨tok, err⟩
    cases err <;> simp

/-- C14, amended, on the zero identity: the presenter over the toy library answers 200
with the token "jwt:0". -/
theorem JWTUserPresenter_Present_checks_no_identifier_witness :
    (Demo.presenter.Present User.zero Demo.aliceWorld).1 =
      (some ⟨200, "jwt:0", Demo.presenter.lifeTime.Seconds⟩, none) :=
  (JWTUserPresenter_Present_checks_no_identifier Demo.presenter User.zero
    Demo.aliceWorld).2.1 "jwt:0" (by decide)

/-- C14 as stated fails: the zero identity, whose identifier 0 is not positive, is
given the token "jwt:0" and no error. -/
theorem JWTUserPresenter_Present_counterexample :
    User.zero.ID ≤ 0 ∧
    (Demo.presenter.Present User.zero Demo.aliceWorld).1.2 = none ∧
    (Demo.presenter.Present User.zero Demo.aliceWorld).1.1.map (fun r => r.access_token) =
      some "jwt:0" := by
  decide

/-- C15, amended: for every identity with identifier `n` and every instant `T` the
injected timer gives, the claims `JWTUserPresenter.Present` signs have the audience (not
the subject, which stays empty) equal to `strconv.FormatInt(n, 10)`, the decimal string
that `strconv.ParseInt` reads back as `n`; the issuer equal to the configured URL; and
issued-at equal to `T` in Unix seconds, rounded down. `Present` signs exactly these
claims, for the instant its one reading of the timer gives. -/
theorem JWTUserPresenter_claims_bind_identifier {σ : Type} (p : JWTUserPresenter σ)
    (user : User) (w : World σ) :
    (p.claims user (p.timer.Now w.state).1).Audience = strconv.FormatInt user.ID 10 ∧
    (-(2 ^ 63 : Int) ≤ user.ID → user.ID < (2 ^ 63 : Int) →
      strconv.ParseInt (p.claims user (p.timer.Now w.state).1).Audience 10 64 =
        (user.ID, none)) ∧
    (p.claims user (p.timer.Now w.state).1).Subject = "" ∧
    (p.claims user (p.timer.Now w.state).1).Issuer = p.url ∧
    (p.claims user (p.timer.Now w.state).1).IssuedAt =
      (p.timer.Now w.state).1.unixNano / 1000000000 ∧
    (∀ accessToken,
      p.jwt.SignedString (p.claims user (p.timer.Now w.state).1) p.secret =
        (accessToken, none) →
      (p.Present user w).1 = (some ⟨200, accessToken, p.lifeTime.Seconds⟩, none)) ∧
    (p.Present user w).2.calls = w.calls ++ [.Now] := by
  refine ⟨rfl, fun hlo hhi => strconv.ParseInt_FormatInt user.ID hlo hhi, rfl, rfl, rfl, ?_,
    ?_⟩
  · intro accessToken hs
    rw [JWTUserPresenter.Present_eq]
    simp only [hs]
  · rw [JWTUserPresenter.Present_eq]
    rfl

/-- C15, amended, on the identity 42 at the instant 1.5 s after the epoch. -/
theorem JWTUserPresenter_claims_bind_identifier_witness :
    Demo.presenter.claims ⟨42, "bob123", "", Time.zero, Time.zero⟩ ⟨1500000000⟩ =
      { Audience := "42", ExpiresAt := 3601, Id := "", IssuedAt := 1,
        Issuer := "http://localhost", NotBefore := 0, Subject := "" } ∧
    strconv.ParseInt
      (Demo.presenter.claims ⟨42, "bob123", "", Time.zero, Time.zero⟩
        ((Demo.presenter.timer.Now (⟨⟨[], 1500000000⟩, []⟩ : World Demo.State).state).1)).Audience
      10 64 = (42, none) :=
  ⟨by decide,
    (JWTUserPresenter_claims_bind_identifier Demo.presenter
      ⟨42, "bob123", "", Time.zero, Time.zero⟩ ⟨⟨[], 1500000000⟩, []⟩).2.1
      (by decide) (by decide)⟩

/-- C15 as stated fails: for the identity 42 the subject of the signed claims is the
empty string, not "42"; the identifier is in the audience. -/
theorem JWTUserPresenter_claims_counterexample :
    (Demo.presenter.claims ⟨42, "bob123", "", Time.zero, Time.zero⟩ ⟨1500000000⟩).Subject =
      "" ∧
    (Demo.presenter.claims ⟨42, "bob123", "", Time.zero, Time.zero⟩ ⟨1500000000⟩).Subject ≠
      strconv.FormatInt 42 10 ∧
    (Demo.presenter.claims ⟨42, "bob123", "", Time.zero, Time.zero⟩ ⟨1500000000⟩).Audience =
      "42" := by
  decide

/-- C17: for every identifier `n` in the range of an `int64`, zero and negatives
included: `Present` writes `strconv.FormatInt(n, 10)` in the audience of the claims,
`strconv.ParseInt` of that string in base 10 on 64 bits returns `n` and no error, and
`JWTAuthenticationMiddleware.Handle`, on a header "Bearer " followed by a token that the
library parses without error into claims with that audience, calls the next handler with
user identifier `n`. -/
theorem Handle_extracts_identifier_written_by_Present {σ : Type} (p : JWTUserPresenter σ)
    (m : JWTAuthenticationMiddleware σ) (user : User) (now : Time) (token : String) (s : σ)
    (decoded : StandardClaims)
    (hlo : -(2 ^ 63 : Int) ≤ user.ID) (hhi : user.ID < (2 ^ 63 : Int))
    (hparse : m.jwt.ParseWithClaims token m.secret s = (decoded, none))
    (haudience : decoded.Audience = (p.claims user now).Audience) :
    (p.claims user now).Audience = strconv.FormatInt user.ID 10 ∧
    strconv.ParseInt (strconv.FormatInt user.ID 10) 10 64 = (user.ID, none) ∧
    m.Handle ("Bearer " ++ token) s = .next user.ID := by
  have hround := strconv.ParseInt_FormatInt user.ID hlo hhi
  have haud : decoded.Audience = strconv.FormatInt user.ID 10 := haudience
  refine ⟨rfl, hround, ?_⟩
  simp only [JWTAuthenticationMiddleware.Handle, strings.Contains_bearer,
    strings.SplitN_bearer, hparse, haud, hround]
  rfl

/-- C17 on the identifier -17: the token the toy library signs for it is "jwt:-17", and
the middleware reads -17 back from the header "Bearer jwt:-17". -/
theorem Handle_extracts_identifier_written_by_Present_witness :
    (Demo.presenter.Present ⟨-17, "bob123", "", Time.zero, Time.zero⟩
        Demo.aliceWorld).1.1.map (fun r => r.access_token) = some "jwt:-17" ∧
    strconv.ParseInt (strconv.FormatInt (-17) 10) 10 64 = (-17, none) ∧
    Demo.middleware.Handle ("Bearer " ++ "jwt:-17") Demo.aliceWorld.state = .next (-17) :=
  have h := Handle_extracts_identifier_written_by_Present Demo.presenter Demo.middleware
    ⟨-17, "bob123", "", Time.zero, Time.zero⟩ ⟨1000⟩ "jwt:-17" Demo.aliceWorld.state
    { StandardClaims.zero with Audience := "-17" } (by decide) (by decide) (by decide)
    (by decide)
  ⟨by decide, h.2.1, h.2.2⟩

theorem roundHalfEven_intCast (z : Int) : roundHalfEven (z : ℚ) = z := by
  simp [roundHalfEven]

theorem float64_dyadic (m j : Int) (hm : |m| < 2 ^ 53) (hj : -1074 ≤ j) :
    float64 ((m : ℚ) * (2 : ℚ) ^ j) = (m : ℚ) * (2 : ℚ) ^ j := by
  by_cases hm0 : m = 0
  · subst hm0
    simp [float64]
  have h2 : (0 : ℚ) < (2 : ℚ) ^ j := zpow_pos (by norm_num) j
  have hx0 : (m : ℚ) * (2 : ℚ) ^ j ≠ 0 :=
    mul_ne_zero (by exact_mod_cast hm0) (ne_of_gt h2)
  have habs : |(m : ℚ) * (2 : ℚ) ^ j| = |(m : ℚ)| * (2 : ℚ) ^ j := by
    rw [abs_mul, abs_of_pos h2]
  have hmq : |(m : ℚ)| < (2 : ℚ) ^ (53 : ℤ) := by
    have : ((|m| : Int) : ℚ) < ((2 ^ 53 : Int) : ℚ) := by exact_mod_cast hm
    rw [Int.cast_abs] at this
    have hpow : ((2 ^ 53 : Int) : ℚ) = (2 : ℚ) ^ (53 : ℤ) := by norm_num
    rw [hpow] at this
    exact this
  have hlt : |(m : ℚ) * (2 : ℚ) ^ j| < ((2 : ℕ) : ℚ) ^ (53 + j) := by
    rw [habs, zpow_add₀ (by norm_num)]
    exact mul_lt_mul_of_pos_right (by simpa using hmq) h2
  have hlog : Int.log 2 |(m : ℚ) * (2 : ℚ) ^ j| < 53 + j :=
    (Int.lt_zpow_iff_log_lt (by norm_num) (abs_pos.2 hx0)).1 hlt
  generalize hE : max (Int.log 2 |(m : ℚ) * (2 : ℚ) ^ j|) (-1022) - 52 = E
  have hEj : E ≤ j := by
    rw [← hE]
    omega
  obtain ⟨n, hn⟩ := Int.eq_ofNat_of_zero_le (sub_nonneg.2 hEj)
  have hdiv : (m : ℚ) * (2 : ℚ) ^ j / (2 : ℚ) ^ E = ((m * 2 ^ n : Int) : ℚ) := by
    have hj' : j = (n : ℤ) + E := by omega
    rw [hj', zpow_add₀ (by norm_num), mul_div_assoc,
      mul_div_assoc, div_self (ne_of_gt (zpow_pos (by norm_num) E))]
    push_cast
    simp
  simp only [float64, hx0, if_false, hE]
  rw [hdiv, roundHalfEven_intCast, ← hdiv,
    div_mul_cancel₀ _ (ne_of_gt (zpow_pos (by norm_num) E))]

theorem float64_intCast (k : Int) (hk : |k| < 2 ^ 53) : float64 (k : ℚ) = (k : ℚ) := by
  have h := float64_dyadic k 0 hk (by decide)
  simpa using h

theorem float64_zero : float64 0 = 0 := by
  simp [float64]

theorem Duration.Seconds_whole (k : Int) (hk : |k| < 2 ^ 53) :
    (Duration.mk (k * 1000000000)).Seconds = (k : ℚ) := by
  simp only [Duration.Seconds]
  rw [Int.mul_tdiv_cancel k (by decide), Int.mul_tmod_left, Int.cast_zero, float64_zero,
    zero_div, float64_zero, add_zero, float64_intCast k hk, float64_intCast k hk]

/-- C16, amended: for every instant `T` and every lifetime `L` (a `time.Duration`, an
`int64` of nanoseconds) that is a whole number `k` of seconds, the expires-at claim of
`JWTUserPresenter.Present` is the issued-at claim plus `k`: their difference, in Unix
seconds, is `k`, which is `L` in seconds and is also the `expires_in` value `Present`
returns, the `float64` of `L.Seconds()`. -/
theorem JWTUserPresenter_claims_lifetime {σ : Type} (p : JWTUserPresenter σ) (user : User)
    (now : Time) (k : Int)
    (hint64 : -(2 ^ 63 : Int) ≤ p.lifeTime.nanoseconds ∧ p.lifeTime.nanoseconds < (2 ^ 63 : Int))
    (hwhole : p.lifeTime.nanoseconds = k * 1000000000) :
    (p.claims user now).ExpiresAt = (p.claims user now).IssuedAt + k ∧
    (p.claims user now).ExpiresAt - (p.claims user now).IssuedAt = k ∧
    p.lifeTime.Seconds = (k : ℚ) ∧
    (∀ (w : World σ) (response : TokenResponse),
      (p.Present user w).1.1 = some response → response.expires_in = (k : ℚ)) := by
  have hi : (p.claims user now).IssuedAt = now.unixNano / 1000000000 := rfl
  have he : (p.claims user now).ExpiresAt =
      (now.unixNano + p.lifeTime.nanoseconds) / 1000000000 := rfl
  have hk : |k| < 2 ^ 53 := by
    obtain ⟨hlo, hhi⟩ := hint64
    rw [hwhole] at hlo hhi
    norm_num at hlo hhi ⊢
    exact abs_lt.2 ⟨by omega, by omega⟩
  have hd : p.lifeTime = Duration.mk (k * 1000000000) := by
    cases hl : p.lifeTime with
    | mk ns => rw [hl] at hwhole; simp only at hwhole; rw [hwhole]
  have hsec : p.lifeTime.Seconds = (k : ℚ) := by
    rw [hd]
    exact Duration.Seconds_whole k hk
  refine ⟨?_, ?_, hsec, ?_⟩
  · rw [hi, he, hwhole]
    omega
  · rw [hi, he, hwhole]
    omega
  · intro w response hr
    rw [JWTUserPresenter.Present_eq] at hr
    rcases hs : p.jwt.SignedString (p.claims user (p.timer.Now w.state).1) p.secret with
      ⟨tok, err⟩
    rw [hs] at hr
    cases err with
    | some e => simp at hr
    | none =>
      simp only [Option.some.injEq] at hr
      rw [← hr]
      exact hsec

/-- C16, amended, on a lifetime of one hour, for a token issued half a second after a
whole second: the difference of the two claims is 3600 and so is `expires_in`. -/
theorem JWTUserPresenter_claims_lifetime_witness :
    (Demo.presenter.claims Demo.aliceUser ⟨500000000⟩).ExpiresAt -
        (Demo.presenter.claims Demo.aliceUser ⟨500000000⟩).IssuedAt = 3600 ∧
    Demo.presenter.lifeTime.Seconds = ((3600 : Int) : ℚ) :=
  have h := JWTUserPresenter_claims_lifetime Demo.presenter Demo.aliceUser ⟨500000000⟩ 3600
    (by decide) (by decide)
  ⟨h.2.1, h.2.2.1⟩

/-- C16 as stated fails: with a lifetime of 1.5 s and a token issued 0.5 s after a whole
second, expires-at minus issued-at is 2 seconds; that is not the lifetime, 1500000000
nanoseconds, expressed in seconds, and it is not the `expires_in` value, which is
3/2. -/
theorem JWTUserPresenter_claims_lifetime_counterexample :
    (Demo.shortPresenter.claims Demo.aliceUser ⟨500000000⟩).ExpiresAt -
        (Demo.shortPresenter.claims Demo.aliceUser ⟨500000000⟩).IssuedAt = 2 ∧
    Demo.shortPresenter.lifeTime.nanoseconds = 1500000000 ∧
    ((Demo.shortPresenter.claims Demo.aliceUser ⟨500000000⟩).ExpiresAt -
        (Demo.shortPresenter.claims Demo.aliceUser ⟨500000000⟩).IssuedAt) * 1000000000 ≠
      Demo.shortPresenter.lifeTime.nanoseconds ∧
    Demo.shortPresenter.lifeTime.Seconds = 3 / 2 ∧
    (((Demo.shortPresenter.claims Demo.aliceUser ⟨500000000⟩).ExpiresAt -
        (Demo.shortPresenter.claims Demo.aliceUser ⟨500000000⟩).IssuedAt : Int) : ℚ) ≠
      Demo.shortPresenter.lifeTime.Seconds := by
  have hdiff : (Demo.shortPresenter.claims Demo.aliceUser ⟨500000000⟩).ExpiresAt -
      (Demo.shortPresenter.claims Demo.aliceUser ⟨500000000⟩).IssuedAt = 2 := by decide
  have hsec : Demo.shortPresenter.lifeTime.Seconds = 3 / 2 := by
    have h1 : (1500000000 : Int).tdiv 1000000000 = 1 := by decide
    have h2 : (1500000000 : Int).tmod 1000000000 = 500000000 := by decide
    have f1 : float64 ((1 : Int) : ℚ) = ((1 : Int) : ℚ) := float64_intCast 1 (by decide)
    have f2 : float64 ((500000000 : Int) : ℚ) = ((500000000 : Int) : ℚ) :=
      float64_intCast 500000000 (by decide)
    have f3 : float64 (((1 : Int) : ℚ) * (2 : ℚ) ^ (-1 : ℤ)) = ((1 : Int) : ℚ) * (2 : ℚ) ^ (-1 : ℤ) :=
      float64_dyadic 1 (-1) (by decide) (by decide)
    have f4 : float64 (((3 : Int) : ℚ) * (2 : ℚ) ^ (-1 : ℤ)) = ((3 : Int) : ℚ) * (2 : ℚ) ^ (-1 : ℤ) :=
      float64_dyadic 3 (-1) (by decide) (by decide)
    have e3 : (((500000000 : Int) : ℚ)) / 1000000000 = ((1 : Int) : ℚ) * (2 : ℚ) ^ (-1 : ℤ) := by
      norm_num
    have e4 : ((1 : Int) : ℚ) + ((1 : Int) : ℚ) * (2 : ℚ) ^ (-1 : ℤ) =
        ((3 : Int) : ℚ) * (2 : ℚ) ^ (-1 : ℤ) := by norm_num
    show float64 (float64 (((1500000000 : Int).tdiv 1000000000 : Int) : ℚ) +
      float64 (float64 (((1500000000 : Int).tmod 1000000000 : Int) : ℚ) / 1000000000)) = 3 / 2
    rw [h1, h2, f1, f2, e3, f3, e4, f4]
    norm_num
  refine ⟨hdiff, rfl, by decide, hsec, ?_⟩
  rw [hdiff, hsec]
  norm_num

end JobsSearch
